import Mathlib

/-!
# waifud `mkvm`: a shallow embedding of `main.go`

The Go program provisions one virtual machine: it resolves a distro in the
embedded catalog, generates a MAC address, connects to libvirt, shows a plan,
waits for the operator, downloads (or reuses) the base image, builds a
cloud-init seed ISO, creates a ZFS volume, imports the image and creates the
libvirt domain.

The embedding runs `main` as a function of

* the parsed command-line flags (`Flags`),
* the answers of everything outside the process (`Env`): embedded data,
  random sources, libvirt, HTTP, child processes, the template engine,
* the file system at start (`FS`),

and returns the ordered list of observable events, the exit status and the
file system as the image-acquisition step changes it (the cache directories
and the cached image; the temporary seed files and what child processes write
are not tracked).
-/

namespace Waifud

/-! ## Data model (`main.go` lines 281-286, 32-38) -/

/-- The Go struct `Distro`. -/
structure Distro where
  name : String
  downloadURL : String
  sha256Sum : String
  minSize : Int
  deriving DecidableEq, Repr

/-- The five command-line flags after `flag.Parse()`. -/
structure Flags where
  distro : String
  name : String
  zvolPrefix : String
  zvolSize : Int
  memory : Int
  deriving DecidableEq, Repr

/-- The flag defaults declared at lines 33-37. -/
def defaultFlags : Flags :=
  { distro := "alpine-edge", name := "", zvolPrefix := "rpool/mkvm-test/", zvolSize := 0,
    memory := 512 }

/-- The anonymous struct handed to the `base.xml` template (lines 190-204). -/
structure DomainParams where
  name : String
  uuid : String
  memory : Int
  zvol : String
  seed : String
  macAddress : String
  deriving DecidableEq, Repr

/-- One file of a txtar archive (`txtar.File`). -/
structure TxtarFile where
  name : String
  data : String
  deriving DecidableEq, Repr

/-- The part of an `http.Response` that `main` looks at. -/
structure HttpResponse where
  statusCode : Nat
  status : String
  body : String
  deriving DecidableEq, Repr

/-! ## Go runtime and standard library pieces used by `main.go` -/

/-- Go `int` on a 64-bit platform: the result of an arithmetic operation is
reduced to the signed 64-bit range. -/
def wrapInt64 (x : Int) : Int := (x + 2 ^ 63) % 2 ^ 64 - 2 ^ 63

/-- The `%d` verb of package `fmt` for an `int`. -/
def fmtInt (n : Int) : String := toString n

/-- The Go constant `hexDigit` of package `net`, indexed. -/
def hexDigit (n : Nat) : Char := "0123456789abcdef".data.getD n '0'

/-- The loop body of `net.HardwareAddr.String`: a colon before every byte but
the first, then the high and the low nibble. -/
def hardwareAddrChars : Bool → List Nat → List Char
  | _, [] => []
  | true, b :: rest => hexDigit (b >>> 4) :: hexDigit (b &&& 0xF) :: hardwareAddrChars false rest
  | false, b :: rest =>
    ':' :: hexDigit (b >>> 4) :: hexDigit (b &&& 0xF) :: hardwareAddrChars false rest

/-- Go `net.HardwareAddr.String`. -/
def hardwareAddrString (a : List Nat) : String := String.mk (hardwareAddrChars true a)

/-- Go `strings.Split(s, "/")` on a list of characters. -/
def splitSlash : List Char → List (List Char)
  | [] => [[]]
  | c :: cs =>
    match splitSlash cs with
    | [] => [[]]
    | w :: ws => if c = '/' then [] :: w :: ws else (c :: w) :: ws

/-- One element of the path in Go `filepath.Clean`: empty and `.` elements are
dropped, `..` removes the element before it (or is kept at the front of a
relative path), anything else is appended. -/
def cleanStep (rooted : Bool) (out : List (List Char)) (comp : List Char) : List (List Char) :=
  if comp = [] ∨ comp = ['.'] then out
  else if comp = ['.', '.'] then
    match out.getLast? with
    | some last => if last = ['.', '.'] then out ++ [comp] else out.dropLast
    | none => if rooted then out else out ++ [comp]
  else out ++ [comp]

/-- Go `filepath.Clean` on Unix. -/
def filepathClean (path : List Char) : List Char :=
  match path with
  | [] => ['.']
  | c :: _ =>
    let rooted : Bool := c = '/'
    let comps := (splitSlash path).foldl (cleanStep rooted) []
    let body := List.intercalate ['/'] comps
    if rooted then '/' :: body else if body = [] then ['.'] else body

/-- Go `filepath.Join` on Unix: leading empty elements are skipped, the rest is
joined with the separator and cleaned; all elements empty gives the empty
string. -/
def filepathJoin (elems : List String) : String :=
  match elems.dropWhile (fun e => e = "") with
  | [] => ""
  | es => String.mk (filepathClean (List.intercalate ['/'] (es.map String.data)))

/-- Go `strings.Join(args, " ")`. -/
def joinSpace (args : List String) : String := String.intercalate " " args

/-- Go `strings.Split(s, "\n")` on a list of characters. -/
def splitNewline : List Char → List (List Char)
  | [] => [[]]
  | c :: cs =>
    match splitNewline cs with
    | [] => [[]]
    | w :: ws => if c = '\n' then [] :: w :: ws else (c :: w) :: ws

/-- Go `strings.TrimSpace` for the white space of ASCII. -/
def trimSpace (cs : List Char) : List Char :=
  ((cs.dropWhile Char.isWhitespace).reverse.dropWhile Char.isWhitespace).reverse

/-- The function `isMarker` of package `txtar` on one line without its newline:
the name in a line `-- name --`, when the name is not empty. -/
def markerName (line : List Char) : Option String :=
  if line.take 3 = ['-', '-', ' '] ∧ (line.reverse.take 3) = ['-', '-', ' '] ∧ 6 ≤ line.length then
    let name := trimSpace ((line.drop 3).take (line.length - 6))
    if name = [] then none else some (String.mk name)
  else none

/-- The loop of `txtar.Parse` over the lines: text before the first marker is
the comment and is dropped, every marker line starts a file, every other line
goes, with its newline, to the file that is open. -/
def txtarFiles : Option TxtarFile → List (List Char) → List TxtarFile
  | cur, [] =>
    match cur with
    | some f => [f]
    | none => []
  | cur, line :: rest =>
    match markerName line with
    | some name =>
      (match cur with
        | some f => [f]
        | none => []) ++ txtarFiles (some { name := name, data := "" }) rest
    | none =>
      match cur with
      | some f =>
        txtarFiles (some { f with data := f.data ++ String.mk line ++ "\n" }) rest
      | none => txtarFiles none rest

/-- Go `txtar.Parse(data).Files`. A last line without a newline gets one (the
function `fixNL`). -/
def txtarParse (text : String) : List TxtarFile :=
  let lines := splitNewline text.data
  txtarFiles none (if lines.getLast? = some [] then lines.dropLast else lines)

/-! ## The file system as explicit state -/

/-- What a path names: a directory or a regular file. Symbolic links and
permissions are outside the model; every entry can be reached and read. -/
inductive Node where
  | dir
  | file (content : String)
  deriving DecidableEq, Repr

/-- A file system: what, if anything, each path names. -/
def FS := String → Option Node

/-- The file system with `p` naming `n`. -/
def FS.insert (fs : FS) (p : String) (n : Node) : FS := fun q => if q = p then some n else fs q

/-- The parent of `path` as `os.MkdirAll` finds it: trailing separators are
skipped, the last element is scanned over, and when that leaves more than the
root separator (`j > 1`) the parent is `path[:j-1]`. -/
def parentPath (path : List Char) : Option (List Char) :=
  let r := (path.reverse.dropWhile (fun c => c = '/')).dropWhile (fun c => c ≠ '/')
  if 1 < r.length then some (r.drop 1).reverse else none

/-- Go `os.MkdirAll` with the recursion bounded by `fuel`: a directory that is
there is success, a file in the way is an error, otherwise the parent is made
first and then the directory itself. Returns the file system and whether the
call succeeded. -/
def mkdirAllAux : Nat → List Char → FS → FS × Bool
  | 0, _, fs => (fs, false)
  | fuel + 1, path, fs =>
    match fs (String.mk path) with
    | some Node.dir => (fs, true)
    | some (Node.file _) => (fs, false)
    | none =>
      match parentPath path with
      | some parent =>
        match mkdirAllAux fuel parent fs with
        | (fs1, true) => (fs1.insert (String.mk path) Node.dir, true)
        | (fs1, false) => (fs1, false)
      | none => (fs.insert (String.mk path) Node.dir, true)

/-- Go `os.MkdirAll(path, 0755)`; every recursive call is on a strictly shorter
path, so `path.length + 1` levels always suffice. -/
def mkdirAll (path : String) (fs : FS) : FS × Bool := mkdirAllAux (path.length + 1) path.data fs

/-- The path itself and the parents that `os.MkdirAll` walks up through, with
the walk bounded by `fuel`. -/
def pathChain : Nat → List Char → List String
  | 0, _ => []
  | fuel + 1, path =>
    String.mk path ::
      (match parentPath path with
        | some parent => pathChain fuel parent
        | none => [])

/-- The path and all its ancestors below the root (or the working directory). -/
def selfAndAncestors (path : String) : List String := pathChain (path.length + 1) path.data

/-- Why `path` cannot serve as a directory, as path lookup reports it: a
regular file on the way is `not a directory` (ENOTDIR), a missing element is
`no such file or directory` (ENOENT); `none` when `path` names a directory. -/
def dirProblemAux : Nat → List Char → FS → Option String
  | 0, _, _ => some "no such file or directory"
  | fuel + 1, path, fs =>
    match fs (String.mk path) with
    | some Node.dir => none
    | some (Node.file _) => some "not a directory"
    | none =>
      match parentPath path with
      | some parent =>
        match dirProblemAux fuel parent fs with
        | some msg => some msg
        | none => some "no such file or directory"
      | none => some "no such file or directory"

/-- Why a file cannot be created at `path`: the problem, if any, of the
directory that is to hold it (a path directly under the root or the working
directory has no parent to check). -/
def createProblem (fs : FS) (path : String) : Option String :=
  match parentPath path.data with
  | some parent => dirProblemAux (parent.length + 1) parent fs
  | none => none

/-! ## Events and the environment -/

/-- Everything `main` does that can be observed from outside the process, in
the order in which it happens. -/
inductive Event where
  /-- The call `rand.Seed(time.Now().Unix())`. -/
  | seedRand
  /-- A `data.ReadFile` on the embedded file system. -/
  | readEmbedded (file : String)
  /-- A `rand.Intn(n)` draw. -/
  | randIntn (n : Nat)
  /-- A `crand.Read` of `n` bytes. -/
  | cryptoRead (n : Nat)
  /-- The `net.DialTimeout` on the libvirt socket. -/
  | dialLibvirt
  /-- The call `l.AuthPolkit()`. -/
  | authPolkit
  /-- The call `l.Connect()`. -/
  | libvirtConnect
  /-- A `fmt.Print`, `fmt.Printf` or `fmt.Println` on standard output. -/
  | stdout (text : String)
  /-- A line of the `log` package (`Print*`, `Fatal*`), without its timestamp. -/
  | log (line : String)
  /-- The call `reader.ReadString` on standard input. -/
  | readStdin
  /-- The call `os.UserCacheDir()`. -/
  | userCacheDir
  /-- An `os.MkdirAll`. -/
  | mkdirAll (path : String)
  /-- An `os.Stat`. -/
  | stat (path : String)
  /-- An `os.Create`. -/
  | create (path : String)
  /-- An `http.Get`. -/
  | httpGet (url : String)
  /-- The `io.Copy` of the response body into the file at `path`. -/
  | copyBody (path : String)
  /-- The call `template.ParseFS(data, "templates/*")`. -/
  | parseTemplates
  /-- The `ExecuteTemplate` of `cloud-config.txtar` with the given name. -/
  | renderCloudConfig (name : String)
  /-- The call `os.MkdirTemp("", "mkvm")`. -/
  | mkdirTemp
  /-- A `Write` of `data` on the file created at `path`. -/
  | write (path : String) (data : String)
  /-- A child process started by `run`. -/
  | exec (args : List String)
  /-- The call `uuid.New()`. -/
  | uuidNew
  /-- The `ExecuteTemplate` of `base.xml` with the given parameters. -/
  | renderBase (params : DomainParams)
  /-- The libvirt call `DomainCreateXML` made by `mkVM`. -/
  | domainCreateXML (xml : String)
  /-- A Go panic. -/
  | panic (msg : String)
  deriving DecidableEq, Repr

/-- The answers of the world outside the process. Errors carry the text that
the `%v` verb prints for them. The embedded files `data/*` and `templates/*`
are not part of the sources, so what they hold appears here as well. -/
structure Env where
  /-- Reading and decoding `data/names.json` in `getName`. -/
  names : Except String (List String)
  /-- The number behind `rand.Intn`, reduced modulo its argument. -/
  randIntn : Nat
  /-- Reading and decoding `data/distros.dhall` in `getDistros`. -/
  distros : Except String (List Distro)
  /-- The bytes `crand.Read` puts into the buffer, or its error. -/
  cryptoRand : Except String (List Nat)
  /-- The three steps of `connectToLibvirt`. -/
  dial : Except String Unit
  authPolkit : Except String Unit
  connect : Except String Unit
  /-- The call `os.UserCacheDir()`. -/
  userCacheDir : Except String String
  /-- An error of `os.Create` on the image path that the file system state does
  not explain (permissions, quota). -/
  createImage : Except String Unit
  /-- The call `http.Get(resultDistro.DownloadURL)`. -/
  httpGet : Except String HttpResponse
  /-- When `io.Copy` fails: how many bytes reached the file and the error. -/
  copyFail : Option (Nat × String)
  /-- The call `template.ParseFS`. -/
  parseTemplates : Except String Unit
  /-- The template `cloud-config.txtar` applied to a name. -/
  cloudConfig : String → Except String String
  /-- The library function `txtar.Parse`. -/
  txtarParse : String → List TxtarFile
  /-- The call `os.MkdirTemp("", "mkvm")`. -/
  mkdirTemp : Except String String
  /-- The call `os.Create` on a seed file. -/
  createSeed : String → Except String Unit
  /-- The call `fout.Write` on a seed file. -/
  writeSeed : String → Except String Unit
  /-- The exit of the three child processes. -/
  genisoimage : Except String Unit
  zfsCreate : Except String Unit
  qemuImg : Except String Unit
  /-- The call `uuid.New().String()`; `uuid.New` panics on error. -/
  uuid : Except String String
  /-- The template `base.xml` applied to its parameters. -/
  baseXml : DomainParams → Except String String
  /-- The libvirt call `DomainCreateXML`: the name of the domain or an error. -/
  domainCreate : String → Except String String

/-! ## Runs: events, file system, early exit -/

/-- How a piece of the program ends: with a value, or with the process gone. -/
inductive Outcome (α : Type) where
  | ok (a : α)
  | exit (code : Nat)
  deriving DecidableEq

/-- The state after a piece of the program has run. -/
structure Step (α : Type) where
  events : List Event
  fs : FS
  out : Outcome α

/-- A piece of the program: from the file system before to the events, the
file system after and the outcome. -/
def Run (α : Type) := FS → Step α

/-- Sequencing: when the first piece exits the process nothing else runs. -/
def Run.bind {α β : Type} (x : Run α) (f : α → Run β) : Run β := fun fs =>
  match x fs with
  | ⟨ev, fs1, Outcome.exit c⟩ => ⟨ev, fs1, Outcome.exit c⟩
  | ⟨ev, fs1, Outcome.ok a⟩ =>
    match f a fs1 with
    | ⟨ev2, fs2, o⟩ => ⟨ev ++ ev2, fs2, o⟩

/-- A piece that does nothing and returns `a`. -/
def Run.pure {α : Type} (a : α) : Run α := fun fs => ⟨[], fs, Outcome.ok a⟩

instance : Monad Run where
  pure := Run.pure
  bind := Run.bind

/-- Record one event. -/
def emit (e : Event) : Run Unit := fun fs => ⟨[e], fs, Outcome.ok ()⟩

/-- The call `os.Exit(code)`. -/
def exit {α : Type} (code : Nat) : Run α := fun fs => ⟨[], fs, Outcome.exit code⟩

/-- The calls `log.Fatal` and `log.Fatalf`: one log line, then `os.Exit(1)`. -/
def fatal {α : Type} (line : String) : Run α := fun fs => ⟨[Event.log line], fs, Outcome.exit 1⟩

/-- A Go panic that nothing recovers: the process exits with status 2. -/
def goPanic {α : Type} (msg : String) : Run α := fun fs => ⟨[Event.panic msg], fs, Outcome.exit 2⟩

/-- The call `os.MkdirAll(path, 0755)` with its error ignored, as at lines
106-107. -/
def osMkdirAll (path : String) : Run Unit := fun fs =>
  ⟨[Event.mkdirAll path], (mkdirAll path fs).1, Outcome.ok ()⟩

/-- The call `os.Stat(path)`: whether it returned without error, which in this
model of directories and regular files is whether the path names anything. -/
def osStat (path : String) : Run Bool := fun fs =>
  ⟨[Event.stat path], fs, Outcome.ok (fs path).isSome⟩

/-- The call `os.Create(path)`: it fails when the environment says so, when the
path names a directory, and when the directory that is to hold it is missing
or has a regular file on the way; otherwise the path names an empty file
afterwards. -/
def osCreate (outcome : Except String Unit) (path : String) : Run (Except String Unit) := fun fs =>
  match outcome with
  | Except.error e => ⟨[Event.create path], fs, Outcome.ok (Except.error e)⟩
  | Except.ok _ =>
    if fs path = some Node.dir then
      ⟨[Event.create path], fs, Outcome.ok (Except.error ("open " ++ path ++ ": is a directory"))⟩
    else
      match createProblem fs path with
      | some msg =>
        ⟨[Event.create path], fs, Outcome.ok (Except.error ("open " ++ path ++ ": " ++ msg))⟩
      | none => ⟨[Event.create path], fs.insert path (Node.file ""), Outcome.ok (Except.ok ())⟩

/-- Bytes arriving in an open file: the path names a file with that content. -/
def setContent (path : String) (content : String) : Run Unit := fun fs =>
  ⟨[], fs.insert path (Node.file content), Outcome.ok ()⟩

/-- What a finished run of the program looks like from outside. -/
structure Result where
  events : List Event
  fs : FS
  exitCode : Nat

/-! ## `randomMac`, `getName`, `run`, `connectToLibvirt`, `mkVM` -/

/-- The statement `buf[0] = (buf[0] | 2) & 0xfe`. -/
def setLocalUnicast : List Nat → List Nat
  | [] => []
  | b :: rest => ((b ||| 2) &&& 0xfe) :: rest

/-- The Go function `randomMac` (lines 221-231), given what `crand.Read` did to
the six-byte buffer. -/
def randomMac (rnd : Except String (List Nat)) : Except String String :=
  match rnd with
  | Except.error e => Except.error e
  | Except.ok buf => Except.ok (hardwareAddrString (setLocalUnicast buf))

/-- The Go function `getName` (lines 233-246). `rand.Intn` panics when the list
of names is empty. -/
def getName (env : Env) : Run (Except String String) := do
  emit (Event.readEmbedded "data/names.json")
  match env.names with
  | Except.error e => pure (Except.error e)
  | Except.ok names =>
    if names.length = 0 then goPanic "invalid argument to Intn"
    else do
      emit (Event.randIntn names.length)
      pure (Except.ok (names.getD (env.randIntn % names.length) ""))

/-- The Go function `getDistros` (lines 288-301). -/
def getDistros (env : Env) : Run (Except String (List Distro)) := do
  emit (Event.readEmbedded "data/distros.dhall")
  pure env.distros

/-- The Go function `run` (lines 248-254): log the command line, then run it. -/
def run (outcome : Except String Unit) (args : List String) : Run (Except String Unit) := do
  emit (Event.log ("running command: " ++ joinSpace args))
  emit (Event.exec args)
  pure outcome

/-- The Go function `connectToLibvirt` (lines 256-274). -/
def connectToLibvirt (env : Env) : Run (Except String Unit) := do
  emit Event.dialLibvirt
  match env.dial with
  | Except.error e => pure (Except.error ("can't dial libvirt: " ++ e))
  | Except.ok _ => do
    emit Event.authPolkit
    match env.authPolkit with
    | Except.error e => pure (Except.error ("can't auth with polkit: " ++ e))
    | Except.ok _ => do
      emit Event.libvirtConnect
      match env.connect with
      | Except.error e => pure (Except.error ("can't connect: " ++ e))
      | Except.ok _ => pure (Except.ok ())

/-- The Go function `mkVM` (lines 276-279). -/
def mkVM (env : Env) (xml : String) : Run (Except String String) := do
  emit (Event.domainCreateXML xml)
  pure (env.domainCreate xml)

/-! ## The distro loop of `main` (lines 57-70)

`zvolSize` is a pointer. It starts at the integer of the `-zvol-size` flag and
the loop may redirect it to `&d.MinSize`, the field of the loop variable. What
`*zvolSize` is afterwards depends on what the variable `d` holds then, so the
loop is run on an explicit store of loop variables. The Go release decides how
many variables there are: one for the whole loop before Go 1.22, one for each
iteration from Go 1.22 on. The repository's `go.mod` is not part of the
sources, so this is a parameter. -/

/-- The two meanings of `for _, d := range distros`. -/
inductive LoopVar where
  /-- Before Go 1.22: one variable `d`, assigned anew in every iteration. -/
  | perLoop
  /-- From Go 1.22 on: a new variable `d` in every iteration. -/
  | perIteration
  deriving DecidableEq, Repr

/-- Where the pointer `zvolSize` points. -/
inductive SizePtr where
  /-- At the integer that `flag.Int` allocated. -/
  | flagValue
  /-- At the field `MinSize` of the loop variable in the given cell. -/
  | loopVarMinSize (cell : Nat)
  deriving DecidableEq, Repr

/-- The variables the loop reads and writes. -/
structure LoopState where
  /-- The loop variables `d`, by cell. -/
  cells : Nat → Option Distro
  zvolSize : SizePtr
  found : Bool
  resultDistro : Distro

/-- The cell of the variable `d` in iteration `i`. -/
def LoopVar.cell : LoopVar → Nat → Nat
  | LoopVar.perLoop, _ => 0
  | LoopVar.perIteration, i => i

/-- The expression `*zvolSize`. -/
def LoopState.deref (flagSize : Int) (st : LoopState) : Int :=
  match st.zvolSize with
  | SizePtr.flagValue => flagSize
  | SizePtr.loopVarMinSize c =>
    match st.cells c with
    | some d => d.minSize
    | none => 0

/-- The body of the loop at lines 59-70 for the element `elem` in iteration `i`. -/
def loopBody (sem : LoopVar) (target : String) (flagSize : Int) (i : Nat) (elem : Distro)
    (st : LoopState) : LoopState :=
  let c := sem.cell i
  -- d = distros[i]
  let st := { st with cells := fun k => if k = c then some elem else st.cells k }
  if elem.name = target then
    let st := { st with found := true, resultDistro := elem }
    let st := if st.deref flagSize = 0 then { st with zvolSize := SizePtr.loopVarMinSize c } else st
    let st :=
      if st.deref flagSize < elem.minSize then { st with zvolSize := SizePtr.loopVarMinSize c }
      else st
    st
  else st

/-- The loop at lines 59-70 from iteration `i` on. -/
def resolveLoop (sem : LoopVar) (target : String) (flagSize : Int) :
    List Distro → Nat → LoopState → LoopState
  | [], _, st => st
  | elem :: rest, i, st =>
    resolveLoop sem target flagSize rest (i + 1) (loopBody sem target flagSize i elem st)

/-- The declarations at lines 57-58 and the flag pointer before the loop. -/
def initLoopState : LoopState :=
  { cells := fun _ => none, zvolSize := SizePtr.flagValue, found := false,
    resultDistro := { name := "", downloadURL := "", sha256Sum := "", minSize := 0 } }

/-- What the loop leaves behind: whether a record matched, `resultDistro`, and
the value of `*zvolSize` as every later statement reads it (lines 92, 180). -/
structure Resolved where
  found : Bool
  distro : Distro
  size : Int
  deriving DecidableEq, Repr

/-- Lines 57-70. -/
def resolveDistro (sem : LoopVar) (target : String) (flagSize : Int) (distros : List Distro) :
    Resolved :=
  let st := resolveLoop sem target flagSize distros 0 initLoopState
  { found := st.found, distro := st.resultDistro, size := st.deref flagSize }

/-- The loop at lines 73-75. -/
def printNames : List Distro → Run Unit
  | [] => pure ()
  | d :: rest => do
    emit (Event.stdout (d.name ++ "\n"))
    printNames rest

/-! ## `main` (lines 40-219) -/

/-- What `main` has settled when the operator has confirmed the plan. -/
structure Plan where
  name : String
  distro : Distro
  size : Int
  zvol : String
  macAddress : String
  deriving DecidableEq, Repr

/-- The cached image: the cache directory `cdir` and `qcowPath`. -/
structure Image where
  cdir : String
  qcowPath : String
  deriving DecidableEq, Repr

/-- The header printed when the distro is not in the catalog (line 72). -/
def notFoundHeader (distro : String) : String :=
  "can't find distro " ++ distro ++ " in my list. Here are distros I know about:\n"

/-- Lines 44-50: the name given with `-name`, or else a random one. -/
def vmName (f : Flags) (env : Env) : Run String :=
  if f.name = "" then do
    match (← getName env) with
    | Except.error e => fatal e
    | Except.ok commonBladeName => pure commonBladeName
  else pure f.name

/-- Lines 41-99: the name, the catalog, the distro, the volume name, the MAC
address, the libvirt connection, the plan and the confirmation. -/
def planning (sem : LoopVar) (f : Flags) (env : Env) : Run Plan := do
  emit Event.seedRand
  let name ← vmName f env
  let distros ← do
    match (← getDistros env) with
    | Except.error e => fatal ("can't load internal list of distros: " ++ e)
    | Except.ok ds => pure ds
  let r := resolveDistro sem f.distro f.zvolSize distros
  if r.found = false then do
    emit (Event.stdout (notFoundHeader f.distro))
    printNames distros
    exit 1
  else do
    let zvol := filepathJoin [f.zvolPrefix, name]
    emit (Event.cryptoRead 6)
    match randomMac env.cryptoRand with
    | Except.error e => fatal ("can't generate mac address: " ++ e)
    | Except.ok macAddress =>
      match (← connectToLibvirt env) with
      | Except.error e => fatal ("can't connect to libvirt: " ++ e)
      | Except.ok _ => do
        emit (Event.log "plan:")
        emit (Event.log ("name: " ++ name))
        emit (Event.log ("zvol: " ++ zvol ++ " (" ++ fmtInt r.size ++ " GB)"))
        emit (Event.log ("base image url: " ++ r.distro.downloadURL))
        emit (Event.log ("mac address: " ++ macAddress))
        emit (Event.log ("ram: " ++ fmtInt f.memory ++ " MB"))
        emit (Event.stdout "press enter if this looks okay:")
        emit Event.readStdin
        pure { name := name, distro := r.distro, size := r.size, zvol := zvol,
               macAddress := macAddress }

/-- Lines 112-131: the download on a cache miss. The file is created first,
then the request is made, then the body is copied into the file. -/
def download (env : Env) (d : Distro) (qcowPath : String) : Run Unit := do
  emit (Event.log ("downloading distro image " ++ d.downloadURL ++ " to " ++ qcowPath))
  match (← osCreate env.createImage qcowPath) with
  | Except.error e => fatal e
  | Except.ok _ => do
    emit (Event.httpGet d.downloadURL)
    match env.httpGet with
    | Except.error e =>
      fatal ("can't fetch qcow2 for " ++ d.name ++ " (" ++ d.downloadURL ++ "): " ++ e)
    | Except.ok resp =>
      if resp.statusCode ≠ 200 then fatal (d.downloadURL ++ " replied " ++ resp.status)
      else do
        emit (Event.copyBody qcowPath)
        match env.copyFail with
        | some (n, e) => do
          setContent qcowPath (String.mk (resp.body.data.take n))
          fatal ("download of " ++ d.downloadURL ++ " failed: " ++ e)
        | none => setContent qcowPath resp.body

/-- The cache directory `cdir` of line 105. -/
def cacheDir (userCache : String) : String := filepathJoin [userCache, "within", "mkvm"]

/-- The path `qcowPath` of line 108 for a checksum. -/
def imagePath (userCache checksum : String) : String :=
  filepathJoin [cacheDir userCache, "qcow2", checksum]

/-- The file system as the `os.Stat` at line 109 finds it: after the two
`os.MkdirAll` calls at lines 106-107. -/
def cacheDirsMade (cdir : String) (fs : FS) : FS :=
  (mkdirAll (filepathJoin [cdir, "seed"]) (mkdirAll (filepathJoin [cdir, "qcow2"]) fs).1).1

/-- Lines 101-132: the image-acquisition step. -/
def acquireImage (env : Env) (d : Distro) : Run Image := do
  emit Event.userCacheDir
  match env.userCacheDir with
  | Except.error e => fatal ("can't find cache dir: " ++ e)
  | Except.ok userCache => do
    let cdir := filepathJoin [userCache, "within", "mkvm"]
    osMkdirAll (filepathJoin [cdir, "qcow2"])
    osMkdirAll (filepathJoin [cdir, "seed"])
    let qcowPath := filepathJoin [cdir, "qcow2", d.sha256Sum]
    let found ← osStat qcowPath
    if found = false then download env d qcowPath else pure ()
    pure { cdir := cdir, qcowPath := qcowPath }

/-- The loop at lines 147-156: every file of the archive is created and
written in the temporary directory. -/
def writeSeedFiles (env : Env) (dir : String) : List TxtarFile → Run Unit
  | [] => pure ()
  | file :: rest => do
    let path := filepathJoin [dir, file.name]
    emit (Event.create path)
    match env.createSeed path with
    | Except.error e => fatal e
    | Except.ok _ => do
      emit (Event.write path file.data)
      match env.writeSeed path with
      | Except.error e => fatal e
      | Except.ok _ => writeSeedFiles env dir rest

/-- Lines 134-173: the templates, the cloud-init files and the seed ISO.
Returns `isoPath`. -/
def buildSeed (env : Env) (plan : Plan) (img : Image) : Run String := do
  emit Event.parseTemplates
  match env.parseTemplates with
  | Except.error e => goPanic e
  | Except.ok _ => do
    emit (Event.renderCloudConfig plan.name)
    match env.cloudConfig plan.name with
    | Except.error e => fatal ("can't generate cloud-config: " ++ e)
    | Except.ok text => do
      let arc := env.txtarParse text
      emit Event.mkdirTemp
      match env.mkdirTemp with
      | Except.error e => fatal ("can't make directory: " ++ e)
      | Except.ok dir => do
        writeSeedFiles env dir arc
        let isoPath := filepathJoin [img.cdir, "seed", plan.name ++ "-" ++ plan.distro.name ++ ".iso"]
        match (← run env.genisoimage
            ["genisoimage", "-output", isoPath, "-volid", "cidata", "-joliet", "-rock",
              filepathJoin [dir, "meta-data"], filepathJoin [dir, "user-data"]]) with
        | Except.error e => fatal e
        | Except.ok _ => pure isoPath

/-- The argument list of the storage-manager command at line 180. -/
def zfsCreateArgs (size : Int) (zvol : String) : List String :=
  ["sudo", "zfs", "create", "-V", fmtInt size ++ "G", zvol]

/-- The argument list of the image import at line 185. -/
def qemuImgArgs (qcowPath zvol : String) : List String :=
  ["sudo", "qemu-img", "convert", "-O", "raw", qcowPath, filepathJoin ["/dev/zvol", zvol]]

/-- The two events of `run` on the storage-manager command (line 180). -/
def zfsCreateEvents (plan : Plan) : List Event :=
  [Event.log ("running command: " ++ joinSpace (zfsCreateArgs plan.size plan.zvol)),
    Event.exec (zfsCreateArgs plan.size plan.zvol)]

/-- The two events of `run` on the image import (line 185). -/
def importEvents (plan : Plan) (img : Image) : List Event :=
  [Event.log ("running command: " ++ joinSpace (qemuImgArgs img.qcowPath plan.zvol)),
    Event.exec (qemuImgArgs img.qcowPath plan.zvol)]

/-- The value handed to the `base.xml` template (lines 190-204). -/
def domainParams (f : Flags) (plan : Plan) (isoPath vmID : String) : DomainParams :=
  { name := plan.name, uuid := vmID, memory := wrapInt64 (f.memory * 1024), zvol := plan.zvol,
    seed := isoPath, macAddress := plan.macAddress }

/-- The four log lines after a failed `mkVM` (lines 211-214). -/
def remedialLines (plan : Plan) (e : String) : List Event :=
  [Event.log ("can't create domain for " ++ plan.name ++ ": " ++ e),
    Event.log "you should run this command:", Event.log "",
    Event.log ("zfs destroy " ++ plan.zvol)]

/-- Lines 175-218: the volume, the import, the domain descriptor and the
domain. -/
def provision (f : Flags) (env : Env) (plan : Plan) (img : Image) (isoPath : String) :
    Run Unit := do
  let ram := wrapInt64 (f.memory * 1024)
  emit Event.uuidNew
  match env.uuid with
  | Except.error e => goPanic e
  | Except.ok vmID =>
    match (← run env.zfsCreate (zfsCreateArgs plan.size plan.zvol)) with
    | Except.error e => fatal ("can't create zvol " ++ plan.zvol ++ ": " ++ e)
    | Except.ok _ =>
      match (← run env.qemuImg (qemuImgArgs img.qcowPath plan.zvol)) with
      | Except.error e => fatal ("can't import qcow2: " ++ e)
      | Except.ok _ => do
        let params : DomainParams :=
          { name := plan.name, uuid := vmID, memory := ram, zvol := plan.zvol, seed := isoPath,
            macAddress := plan.macAddress }
        emit (Event.renderBase params)
        match env.baseXml params with
        | Except.error e => fatal ("can't generate VM template: " ++ e)
        | Except.ok xml =>
          match (← mkVM env xml) with
          | Except.error e => do
            emit (Event.log ("can't create domain for " ++ plan.name ++ ": " ++ e))
            emit (Event.log "you should run this command:")
            emit (Event.log "")
            emit (Event.log ("zfs destroy " ++ plan.zvol))
            exit 1
          | Except.ok domainName => emit (Event.log ("created " ++ domainName))

/-- The Go function `main`. -/
def main (sem : LoopVar) (f : Flags) (env : Env) : Run Unit := do
  let plan ← planning sem f env
  let img ← acquireImage env plan.distro
  let isoPath ← buildSeed env plan img
  provision f env plan img isoPath

/-- One run of the program. -/
def runMain (sem : LoopVar) (f : Flags) (env : Env) (fs : FS) : Result :=
  match main sem f env fs with
  | ⟨ev, fs1, Outcome.ok _⟩ => { events := ev, fs := fs1, exitCode := 0 }
  | ⟨ev, fs1, Outcome.exit c⟩ => { events := ev, fs := fs1, exitCode := c }

/-! ## Kinds of events -/

/-- The actions that change something outside the process: making
directories, creating or writing files, the HTTP download, child processes and
the creation of the domain. -/
def Event.isMutating : Event → Bool
  | Event.mkdirAll _ => true
  | Event.create _ => true
  | Event.httpGet _ => true
  | Event.copyBody _ => true
  | Event.mkdirTemp => true
  | Event.write _ _ => true
  | Event.exec _ => true
  | Event.domainCreateXML _ => true
  | _ => false

/-- Text for the operator: standard output, the log, a panic message. -/
def Event.isConsole : Event → Bool
  | Event.stdout _ => true
  | Event.log _ => true
  | Event.panic _ => true
  | _ => false

/-- Loading embedded data. -/
def Event.isEmbeddedLoad : Event → Bool
  | Event.readEmbedded _ => true
  | _ => false

/-- Use of a random source: seeding, a draw from `math/rand`, bytes from
`crypto/rand`. -/
def Event.isRandom : Event → Bool
  | Event.seedRand => true
  | Event.randIntn _ => true
  | Event.cryptoRead _ => true
  | _ => false

/-- The three steps of connecting to the hypervisor daemon. -/
def Event.isHypervisorConnect : Event → Bool
  | Event.dialLibvirt => true
  | Event.authPolkit => true
  | Event.libvirtConnect => true
  | _ => false

/-- What may happen before the operator has confirmed. -/
def Event.beforeConfirmation (ev : Event) : Bool :=
  ev.isConsole || ev.isEmbeddedLoad || ev.isRandom || ev.isHypervisorConnect

/-- The storage-manager command `sudo zfs create ...`. -/
def Event.isZfsCreate : Event → Bool
  | Event.exec args => args.take 3 = ["sudo", "zfs", "create"]
  | _ => false

/-- The image import `sudo qemu-img convert ...`. -/
def Event.isImageImport : Event → Bool
  | Event.exec args => args.take 3 = ["sudo", "qemu-img", "convert"]
  | _ => false

/-- The libvirt call `DomainCreateXML`. -/
def Event.isDomainCreate : Event → Bool
  | Event.domainCreateXML _ => true
  | _ => false

/-- The rendering of the domain template `base.xml`. -/
def Event.isRenderBase : Event → Bool
  | Event.renderBase _ => true
  | _ => false

/-- The events of the image-acquisition step. -/
def Event.isAcquire : Event → Bool
  | Event.userCacheDir => true
  | Event.mkdirAll _ => true
  | Event.stat _ => true
  | Event.log _ => true
  | Event.create _ => true
  | Event.httpGet _ => true
  | Event.copyBody _ => true
  | _ => false

/-- The events of the seed-building step. -/
def Event.isSeed : Event → Bool
  | Event.parseTemplates => true
  | Event.renderCloudConfig _ => true
  | Event.mkdirTemp => true
  | Event.create _ => true
  | Event.write _ _ => true
  | Event.log _ => true
  | Event.panic _ => true
  | Event.exec args => args.take 1 = ["genisoimage"]
  | _ => false

/-- How many HTTP requests a list of events holds. -/
def httpRequests (evs : List Event) : Nat :=
  (evs.filter (fun ev => match ev with | Event.httpGet _ => true | _ => false)).length

/-- The four kinds of events that only the provisioning step (lines 175-218)
produces. -/
def Event.isProvisioning (ev : Event) : Bool :=
  ev.isZfsCreate || ev.isImageImport || ev.isRenderBase || ev.isDomainCreate

/-- Output on standard output. -/
def Event.isStdout : Event → Bool
  | Event.stdout _ => true
  | _ => false

/-! ## Reading a hardware address back

The specification side of `randomMac`: a reader for the textual form, written
independently of `net.HardwareAddr.String`. -/

/-- The value of a lowercase hexadecimal digit. -/
def hexValue (c : Char) : Option Nat :=
  if '0' ≤ c ∧ c ≤ '9' then some (c.toNat - '0'.toNat)
  else if 'a' ≤ c ∧ c ≤ 'f' then some (c.toNat - 'a'.toNat + 10)
  else none

/-- The byte written as the two lowercase hexadecimal digits `h` and `l`. -/
def hexPair (h l : Char) : Option Nat :=
  match hexValue h, hexValue l with
  | some a, some b => some (a * 16 + b)
  | _, _ => none

/-- The bytes of a text made of two-digit lowercase hexadecimal groups with a
colon between neighbours; `none` for any other text. -/
def decodeMacChars : List Char → Option (List Nat)
  | [h, l] => (hexPair h l).map (fun b => [b])
  | h :: l :: c :: rest =>
    if c = ':' then
      match hexPair h l, decodeMacChars rest with
      | some b, some bs => some (b :: bs)
      | _, _ => none
    else none
  | _ => none

/-- The bytes of a hardware address in colon-separated lowercase hexadecimal. -/
def decodeMac (s : String) : Option (List Nat) := decodeMacChars s.data

/-! ## Concrete inputs -/

/-- The catalog entry of the end-to-end scenario. -/
def alpine : Distro :=
  { name := "alpine-edge", downloadURL := "http://x/alpine.qcow2", sha256Sum := "abc123",
    minSize := 4 }

/-- A second catalog entry with a larger minimum size. -/
def ubuntu : Distro :=
  { name := "ubuntu-20.04", downloadURL := "http://x/ubuntu.qcow2", sha256Sum := "def456",
    minSize := 20 }

/-- A catalog in which the requested distro is not the last record. -/
def twoCatalog : List Distro := [alpine, ubuntu]

/-- A catalog with two records of the same name, followed by another record. -/
def dupCatalog : List Distro := [{ alpine with minSize := 10 }, alpine, { ubuntu with minSize := 7 }]

/-- The request of the end-to-end scenario: `-name test1`, everything else at
its default. -/
def scenarioFlags : Flags := { defaultFlags with name := "test1" }

/-- An environment in which every external call succeeds. -/
def scenarioEnv (catalog : List Distro) : Env :=
  { names := Except.ok ["sena"], randIntn := 0, distros := Except.ok catalog,
    cryptoRand := Except.ok [0x5f, 0x10, 0xa2, 0x03, 0xee, 0xff],
    dial := Except.ok (), authPolkit := Except.ok (), connect := Except.ok (),
    userCacheDir := Except.ok "/home/u/.cache", createImage := Except.ok (),
    httpGet := Except.ok { statusCode := 200, status := "200 OK", body := "QCOW2" },
    copyFail := none, parseTemplates := Except.ok (),
    cloudConfig := fun name => Except.ok
      ("-- meta-data --\nhostname: " ++ name ++ "\n-- user-data --\n#cloud-config\n"),
    txtarParse := txtarParse,
    mkdirTemp := Except.ok "/tmp/mkvm1", createSeed := fun _ => Except.ok (),
    writeSeed := fun _ => Except.ok (), genisoimage := Except.ok (), zfsCreate := Except.ok (),
    qemuImg := Except.ok (), uuid := Except.ok "6ba7b810-9dad-11d1-80b4-00c04fd430c8",
    baseXml := fun p => Except.ok ("<domain><name>" ++ p.name ++ "</name><memory>" ++
      fmtInt p.memory ++ "</memory></domain>"),
    domainCreate := fun _ => Except.ok "test1" }

/-- The request of the scenario with the distro name in another case. -/
def wrongCaseFlags : Flags := { scenarioFlags with distro := "Alpine-Edge" }

/-- The scenario with the image server refusing the connection. -/
def refusedEnv : Env :=
  { scenarioEnv [alpine] with httpGet := Except.error "dial tcp: connection refused" }

/-- The scenario with the image server answering 404. -/
def notFoundEnv : Env :=
  { scenarioEnv [alpine] with
    httpGet := Except.ok { statusCode := 404, status := "404 Not Found", body := "" } }

/-- The scenario with the transfer breaking off after two bytes. -/
def truncatedEnv : Env :=
  { scenarioEnv [alpine] with copyFail := some (2, "unexpected EOF") }

/-- The scenario with `zfs create` failing. -/
def volumeFailsEnv : Env :=
  { scenarioEnv [alpine] with zfsCreate := Except.error "exit status 1" }

/-- The scenario with `qemu-img convert` failing. -/
def importFailsEnv : Env :=
  { scenarioEnv [alpine] with qemuImg := Except.error "exit status 1" }

/-- The scenario with the `base.xml` template failing. -/
def renderFailsEnv : Env :=
  { scenarioEnv [alpine] with baseXml := fun _ => Except.error "template: base.xml: no such field" }

/-- The scenario with libvirt refusing the domain. -/
def createFailsEnv : Env :=
  { scenarioEnv [alpine] with domainCreate := fun _ => Except.error "operation failed" }

/-- A file system with nothing in it. -/
def emptyFS : FS := fun _ => none

/-- A file system that holds the cached image of `alpine` but no `seed`
directory. -/
def cachedFS : FS := fun p =>
  if p = "/home/u/.cache/within/mkvm/qcow2/abc123" then some (Node.file "QCOW2")
  else if p ∈ ["/home", "/home/u", "/home/u/.cache", "/home/u/.cache/within",
      "/home/u/.cache/within/mkvm", "/home/u/.cache/within/mkvm/qcow2"] then some Node.dir
  else none

/-! # Theorems -/

/-! ## Sequencing lemmas -/

theorem bind_apply {α β : Type} (x : Run α) (f : α → Run β) (fs : FS) :
    (x >>= f) fs = Run.bind x f fs := rfl

theorem bind_of_exit {α β : Type} (x : Run α) (f : α → Run β) (fs : FS) (c : Nat)
    (h : (x fs).out = Outcome.exit c) :
    (x >>= f) fs = ⟨(x fs).events, (x fs).fs, Outcome.exit c⟩ := by
  show Run.bind x f fs = _
  unfold Run.bind
  rcases hx : x fs with ⟨ev, fs1, o⟩
  rw [hx] at h
  simp only at h
  subst h
  rfl

theorem bind_of_ok {α β : Type} (x : Run α) (f : α → Run β) (fs : FS) (a : α)
    (h : (x fs).out = Outcome.ok a) :
    (x >>= f) fs =
      ⟨(x fs).events ++ (f a (x fs).fs).events, (f a (x fs).fs).fs, (f a (x fs).fs).out⟩ := by
  show Run.bind x f fs = _
  unfold Run.bind
  rcases hx : x fs with ⟨ev, fs1, o⟩
  rw [hx] at h
  simp only at h
  subst h
  rfl


theorem printNames_apply (ds : List Distro) (fs : FS) :
    printNames ds fs = ⟨ds.map (fun d => Event.stdout (d.name ++ "\n")), fs, Outcome.ok ()⟩ := by
  induction ds with
  | nil => rfl
  | cons d rest ih =>
    show Run.bind (emit (Event.stdout (d.name ++ "\n"))) (fun _ => printNames rest) fs = _
    simp [Run.bind, emit, ih]

theorem before_seedRand : Event.seedRand.beforeConfirmation = true := rfl
theorem before_readEmbedded (p : String) : (Event.readEmbedded p).beforeConfirmation = true := rfl
theorem before_randIntn (n : Nat) : (Event.randIntn n).beforeConfirmation = true := rfl
theorem before_cryptoRead (n : Nat) : (Event.cryptoRead n).beforeConfirmation = true := rfl
theorem before_stdout (s : String) : (Event.stdout s).beforeConfirmation = true := rfl
theorem before_log (s : String) : (Event.log s).beforeConfirmation = true := rfl
theorem before_panic (s : String) : (Event.panic s).beforeConfirmation = true := rfl
theorem before_dial : Event.dialLibvirt.beforeConfirmation = true := rfl
theorem before_auth : Event.authPolkit.beforeConfirmation = true := rfl
theorem before_connect : Event.libvirtConnect.beforeConfirmation = true := rfl

theorem vmName_spec (f : Flags) (env : Env) (fs : FS) :
    (vmName f env fs).fs = fs ∧
    (∀ ev ∈ (vmName f env fs).events, ev.beforeConfirmation = true) ∧
    (∀ c, (vmName f env fs).out = Outcome.exit c → c ≠ 0) ∧
    (∀ n, (vmName f env fs).out = Outcome.ok n → f.name ≠ "" → n = f.name) := by
  by_cases hname : f.name = ""
  · rcases hn : env.names with e | ns
    · simp [vmName, getName, bind, Run.bind, pure, Run.pure, emit, fatal, hname, hn,
        before_readEmbedded, before_log]
    · by_cases hl : ns.length = 0
      · have : ns = [] := List.length_eq_zero.mp hl
        simp [vmName, getName, bind, Run.bind, pure, Run.pure, emit, fatal, goPanic, hname, hn, this,
          before_readEmbedded, before_panic]
      · simp [vmName, getName, bind, Run.bind, pure, Run.pure, emit, fatal, goPanic, hname, hn, hl,
          before_readEmbedded, before_randIntn]
  · simp [vmName, pure, Run.pure, hname]

theorem connectToLibvirt_spec (env : Env) (fs : FS) :
    (connectToLibvirt env fs).fs = fs ∧
    (∀ ev ∈ (connectToLibvirt env fs).events, ev.beforeConfirmation = true) ∧
    (∃ r, (connectToLibvirt env fs).out = Outcome.ok r) := by
  rcases h1 : env.dial with e | u
  · simp [connectToLibvirt, bind, Run.bind, pure, Run.pure, emit, h1, before_dial]
  · rcases h2 : env.authPolkit with e | u
    · simp [connectToLibvirt, bind, Run.bind, pure, Run.pure, emit, h1, h2, before_dial,
        before_auth]
    · rcases h3 : env.connect with e | u <;>
        simp [connectToLibvirt, bind, Run.bind, pure, Run.pure, emit, h1, h2, h3, before_dial,
          before_auth, before_connect]

/-- What the planning phase can do. -/
theorem planning_spec (sem : LoopVar) (f : Flags) (env : Env) (fs : FS) :
    (planning sem f env fs).fs = fs ∧
    ((∃ c, (planning sem f env fs).out = Outcome.exit c ∧ c ≠ 0 ∧
        ∀ ev ∈ (planning sem f env fs).events, ev.beforeConfirmation = true) ∨
     (∃ plan pre catalog, (planning sem f env fs).out = Outcome.ok plan ∧
        (planning sem f env fs).events = pre ++ [Event.readStdin] ∧
        (∀ ev ∈ pre, ev.beforeConfirmation = true) ∧
        env.distros = Except.ok catalog ∧
        (resolveDistro sem f.distro f.zvolSize catalog).found = true ∧
        plan.distro = (resolveDistro sem f.distro f.zvolSize catalog).distro ∧
        plan.size = (resolveDistro sem f.distro f.zvolSize catalog).size ∧
        plan.zvol = filepathJoin [f.zvolPrefix, plan.name] ∧
        (f.name ≠ "" → plan.name = f.name) ∧
        randomMac env.cryptoRand = Except.ok plan.macAddress)) := by
  obtain ⟨hfs, hev, hexit, hgiven⟩ := vmName_spec f env fs
  rcases hv : vmName f env fs with ⟨evN, fsN, oN⟩
  rw [hv] at hfs hev hexit hgiven
  simp only at hfs hev hexit hgiven
  subst hfs
  cases oN with
  | exit c =>
    have hc := hexit c rfl
    simp [planning, bind, Run.bind, emit, hv, hc, before_seedRand]
    exact hev
  | ok name =>
    have hn : f.name ≠ "" → name = f.name := hgiven name rfl
    rcases hd : env.distros with e | catalog
    · simp [planning, bind, Run.bind, emit, fatal, pure, Run.pure, getDistros, hv, hd,
        before_seedRand, before_readEmbedded, before_log]
      intro ev h
      rcases h with h | h | h
      · exact hev ev h
      · subst h; rfl
      · subst h; rfl
    · cases hfound : (resolveDistro sem f.distro f.zvolSize catalog).found with
      | false =>
        simp [planning, bind, Run.bind, emit, fatal, pure, Run.pure, getDistros, hv, hd, hfound,
          exit, printNames_apply, before_seedRand]
        intro ev hmem
        rcases hmem with h | h | h | h
        · exact hev ev h
        · subst h; rfl
        · subst h; rfl
        · rcases h with ⟨d, -, rfl⟩
          rfl
      | true =>
        rcases hm : randomMac env.cryptoRand with e | mac
        · simp [planning, bind, Run.bind, emit, fatal, pure, Run.pure, getDistros, hv, hd, hfound,
            hm, before_seedRand]
          intro ev hmem
          rcases hmem with h | h | h | h
          · exact hev ev h
          · subst h; rfl
          · subst h; rfl
          · subst h; rfl
        · obtain ⟨hcfs, hcev, r, hcout⟩ := connectToLibvirt_spec env fsN
          rcases hc : connectToLibvirt env fsN with ⟨evC, fsC, oC⟩
          rw [hc] at hcfs hcev hcout
          simp only at hcfs hcev hcout
          subst hcfs hcout
          rcases r with e | u
          · simp [planning, bind, Run.bind, emit, fatal, pure, Run.pure, getDistros, hv, hd,
              hfound, hm, hc, before_seedRand]
            intro ev hmem
            rcases hmem with h | h | h | h | h
            · exact hev ev h
            · subst h; rfl
            · subst h; rfl
            · exact hcev ev h
            · subst h; rfl
          · refine ⟨?_, Or.inr ?_⟩
            · simp [planning, bind, Run.bind, emit, fatal, pure, Run.pure, getDistros, hv, hd,
                hfound, hm, hc]
            · refine ⟨⟨name, (resolveDistro sem f.distro f.zvolSize catalog).distro,
                (resolveDistro sem f.distro f.zvolSize catalog).size,
                filepathJoin [f.zvolPrefix, name], mac⟩,
                Event.seedRand :: (evN ++ Event.readEmbedded "data/distros.dhall" ::
                  Event.cryptoRead 6 :: (evC ++ [Event.log "plan:", Event.log ("name: " ++ name),
                  Event.log ("zvol: " ++ filepathJoin [f.zvolPrefix, name] ++ " (" ++
                    fmtInt (resolveDistro sem f.distro f.zvolSize catalog).size ++ " GB)"),
                  Event.log ("base image url: " ++
                    (resolveDistro sem f.distro f.zvolSize catalog).distro.downloadURL),
                  Event.log ("mac address: " ++ mac),
                  Event.log ("ram: " ++ fmtInt f.memory ++ " MB"),
                  Event.stdout "press enter if this looks okay:"])), catalog, ?_, ?_, ?_, rfl,
                  hfound, rfl, rfl, rfl, hn, rfl⟩
              · simp [planning, bind, Run.bind, emit, fatal, pure, Run.pure, getDistros, hv, hd,
                  hfound, hm, hc]
              · simp [planning, bind, Run.bind, emit, fatal, pure, Run.pure, getDistros, hv, hd,
                  hfound, hm, hc]
              · intro ev hmem
                simp only [List.mem_cons, List.mem_append, List.mem_singleton, List.not_mem_nil,
                  or_false] at hmem
                rcases hmem with h | h | h | h | h | h
                · subst h; rfl
                · exact hev ev h
                · subst h; rfl
                · subst h; rfl
                · exact hcev ev h
                · rcases h with h | h | h | h | h | h | h <;> subst h <;> rfl

/-! ## The file system under `os.MkdirAll` -/

theorem insert_same (fs : FS) (p : String) (n : Node) : fs.insert p n p = some n := by
  simp [FS.insert]

theorem insert_other (fs : FS) (p q : String) (n : Node) (h : q ≠ p) : fs.insert p n q = fs q := by
  simp [FS.insert, h]

/-- A node of the file system is either untouched by `os.MkdirAll` or a directory
made where nothing was, at the path itself or at one of its ancestors. -/
theorem mkdirAllAux_only_adds_dirs (fuel : Nat) :
    ∀ (path : List Char) (fs : FS) (q : String),
      (mkdirAllAux fuel path fs).1 q = fs q ∨
        (fs q = none ∧ (mkdirAllAux fuel path fs).1 q = some Node.dir ∧
          q ∈ pathChain fuel path) := by
  induction fuel with
  | zero => intro path fs q; left; rfl
  | succ fuel ih =>
    intro path fs q
    unfold mkdirAllAux pathChain
    rcases hp : fs (String.mk path) with _ | n
    · simp only
      rcases hpar : parentPath path with _ | parent
      · simp only
        by_cases hq : q = String.mk path
        · right; subst hq; exact ⟨hp, insert_same _ _ _, List.mem_cons_self _ _⟩
        · left; exact insert_other _ _ _ _ hq
      · simp only
        rcases hrec : mkdirAllAux fuel parent fs with ⟨fs1, ok⟩
        have h := ih parent fs q
        rw [hrec] at h
        simp only at h
        have h2 : fs1 q = fs q ∨
            (fs q = none ∧ fs1 q = some Node.dir ∧ q ∈ String.mk path :: pathChain fuel parent) := by
          rcases h with h | ⟨h1, h2, h3⟩
          · exact Or.inl h
          · exact Or.inr ⟨h1, h2, List.mem_cons_of_mem _ h3⟩
        cases ok with
        | false => exact h2
        | true =>
          simp only
          by_cases hq : q = String.mk path
          · right; subst hq; exact ⟨hp, insert_same _ _ _, List.mem_cons_self _ _⟩
          · rw [insert_other _ _ _ _ hq]; exact h2
    · cases n <;> (left; rfl)

theorem mkdirAll_only_adds_dirs (path : String) (fs : FS) (q : String) :
    (mkdirAll path fs).1 q = fs q ∨
      (fs q = none ∧ (mkdirAll path fs).1 q = some Node.dir ∧ q ∈ selfAndAncestors path) :=
  mkdirAllAux_only_adds_dirs _ _ _ _

theorem mkdirAll_keeps (path : String) (fs : FS) (q : String) (n : Node) (h : fs q = some n) :
    (mkdirAll path fs).1 q = some n := by
  rcases mkdirAll_only_adds_dirs path fs q with h1 | ⟨h1, -⟩
  · rw [h1, h]
  · rw [h] at h1; cases h1

/-! ## The image-acquisition step -/

/-- The two `os.MkdirAll` calls at lines 106-107 leave every entry as it was
and make directories only where nothing was, at `<cdir>/qcow2`, at
`<cdir>/seed` or at an ancestor of these. -/
theorem cacheDirsMade_only_adds_dirs (cdir : String) (fs : FS) (q : String) :
    cacheDirsMade cdir fs q = fs q ∨
      (fs q = none ∧ cacheDirsMade cdir fs q = some Node.dir ∧
        (q ∈ selfAndAncestors (filepathJoin [cdir, "qcow2"]) ∨
          q ∈ selfAndAncestors (filepathJoin [cdir, "seed"]))) := by
  unfold cacheDirsMade
  rcases mkdirAll_only_adds_dirs (filepathJoin [cdir, "qcow2"]) fs q with h1 | ⟨h1, h2, h5⟩
  · rcases mkdirAll_only_adds_dirs (filepathJoin [cdir, "seed"])
      (mkdirAll (filepathJoin [cdir, "qcow2"]) fs).1 q with h3 | ⟨h3, h4, h6⟩
    · left; rw [h3, h1]
    · right; exact ⟨by rw [← h1]; exact h3, h4, Or.inr h6⟩
  · right
    exact ⟨h1, mkdirAll_keeps _ _ _ _ h2, Or.inl h5⟩

theorem httpRequests_append (a b : List Event) :
    httpRequests (a ++ b) = httpRequests a + httpRequests b := by
  simp [httpRequests]

/-- The step up to and including the `os.Stat`. -/
theorem acquireImage_eq (env : Env) (d : Distro) (fs : FS) (userCache : String)
    (hu : env.userCacheDir = Except.ok userCache) :
    acquireImage env d fs =
      (match cacheDirsMade (filepathJoin [userCache, "within", "mkvm"]) fs
          (filepathJoin [filepathJoin [userCache, "within", "mkvm"], "qcow2", d.sha256Sum]) with
      | some _ =>
        ⟨[Event.userCacheDir,
          Event.mkdirAll (filepathJoin [filepathJoin [userCache, "within", "mkvm"], "qcow2"]),
          Event.mkdirAll (filepathJoin [filepathJoin [userCache, "within", "mkvm"], "seed"]),
          Event.stat
            (filepathJoin [filepathJoin [userCache, "within", "mkvm"], "qcow2", d.sha256Sum])],
          cacheDirsMade (filepathJoin [userCache, "within", "mkvm"]) fs,
          Outcome.ok ⟨filepathJoin [userCache, "within", "mkvm"],
            filepathJoin [filepathJoin [userCache, "within", "mkvm"], "qcow2", d.sha256Sum]⟩⟩
      | none =>
        match download env d
            (filepathJoin [filepathJoin [userCache, "within", "mkvm"], "qcow2", d.sha256Sum])
            (cacheDirsMade (filepathJoin [userCache, "within", "mkvm"]) fs) with
        | ⟨ev, fs1, Outcome.exit c⟩ =>
          ⟨[Event.userCacheDir,
            Event.mkdirAll (filepathJoin [filepathJoin [userCache, "within", "mkvm"], "qcow2"]),
            Event.mkdirAll (filepathJoin [filepathJoin [userCache, "within", "mkvm"], "seed"]),
            Event.stat
              (filepathJoin [filepathJoin [userCache, "within", "mkvm"], "qcow2", d.sha256Sum])]
            ++ ev, fs1, Outcome.exit c⟩
        | ⟨ev, fs1, Outcome.ok _⟩ =>
          ⟨[Event.userCacheDir,
            Event.mkdirAll (filepathJoin [filepathJoin [userCache, "within", "mkvm"], "qcow2"]),
            Event.mkdirAll (filepathJoin [filepathJoin [userCache, "within", "mkvm"], "seed"]),
            Event.stat
              (filepathJoin [filepathJoin [userCache, "within", "mkvm"], "qcow2", d.sha256Sum])]
            ++ ev, fs1,
            Outcome.ok ⟨filepathJoin [userCache, "within", "mkvm"],
              filepathJoin [filepathJoin [userCache, "within", "mkvm"], "qcow2", d.sha256Sum]⟩⟩) := by
  rcases hst : cacheDirsMade (filepathJoin [userCache, "within", "mkvm"]) fs
      (filepathJoin [filepathJoin [userCache, "within", "mkvm"], "qcow2", d.sha256Sum]) with _ | n
  · unfold cacheDirsMade at hst
    rcases hdl : download env d
        (filepathJoin [filepathJoin [userCache, "within", "mkvm"], "qcow2", d.sha256Sum])
        (cacheDirsMade (filepathJoin [userCache, "within", "mkvm"]) fs) with ⟨ev, fs1, o⟩
    unfold cacheDirsMade at hdl
    cases o <;>
      simp [acquireImage, bind, Run.bind, pure, Run.pure, emit, osMkdirAll, osStat, hu, hst, hdl,
        cacheDirsMade]
  · unfold cacheDirsMade at hst
    simp [acquireImage, bind, Run.bind, pure, Run.pure, emit, osMkdirAll, osStat, hu, hst,
      cacheDirsMade]

theorem acq_log (s : String) : (Event.log s).isAcquire = true := rfl
theorem acq_create (s : String) : (Event.create s).isAcquire = true := rfl
theorem acq_httpGet (s : String) : (Event.httpGet s).isAcquire = true := rfl
theorem acq_copyBody (s : String) : (Event.copyBody s).isAcquire = true := rfl
theorem acq_userCacheDir : Event.userCacheDir.isAcquire = true := rfl
theorem acq_mkdirAll (s : String) : (Event.mkdirAll s).isAcquire = true := rfl
theorem acq_stat (s : String) : (Event.stat s).isAcquire = true := rfl

/-- The download on a miss: every way it can end. -/
theorem download_spec (env : Env) (d : Distro) (qcowPath : String) (fs : FS) :
    (∀ q, q ≠ qcowPath → (download env d qcowPath fs).fs q = fs q) ∧
    (∀ u, (download env d qcowPath fs).out = Outcome.ok u →
      httpRequests (download env d qcowPath fs).events = 1 ∧
      ∃ resp, env.httpGet = Except.ok resp ∧
        (download env d qcowPath fs).fs qcowPath = some (Node.file resp.body)) ∧
    (∀ c, (download env d qcowPath fs).out = Outcome.exit c → c = 1) ∧
    (httpRequests (download env d qcowPath fs).events = 0 ∨
      (httpRequests (download env d qcowPath fs).events = 1 ∧
        ∃ content, (download env d qcowPath fs).fs qcowPath = some (Node.file content))) ∧
    (∀ ev ∈ (download env d qcowPath fs).events, ev.isAcquire = true) := by
  rcases hc : env.createImage with e | u
  · simp [download, osCreate, bind, Run.bind, pure, Run.pure, emit, fatal, hc, httpRequests,
      acq_log, acq_create]
  · by_cases hdir : fs qcowPath = some Node.dir
    · simp [download, osCreate, bind, Run.bind, pure, Run.pure, emit, fatal, hc, hdir,
        httpRequests, acq_log, acq_create]
    · rcases hpar : createProblem fs qcowPath with _ | msg
      swap
      · simp [download, osCreate, bind, Run.bind, pure, Run.pure, emit, fatal, hc, hdir, hpar,
          httpRequests, acq_log, acq_create]
      · rcases hg : env.httpGet with e | resp
        · simp +contextual [download, osCreate, bind, Run.bind, pure, Run.pure, emit, fatal, hc, hdir, hpar,
            hg, httpRequests, acq_log, acq_create, acq_httpGet, FS.insert]
        · by_cases hs : resp.statusCode = 200
          · rcases hcp : env.copyFail with _ | ⟨n, e⟩
            · simp +contextual [download, osCreate, bind, Run.bind, pure, Run.pure, emit, fatal, hc, hdir,
                hpar, hg, hs, hcp, httpRequests, acq_log, acq_create, acq_httpGet, acq_copyBody,
                FS.insert, setContent]
            · simp +contextual [download, osCreate, bind, Run.bind, pure, Run.pure, emit, fatal, hc, hdir,
                hpar, hg, hs, hcp, httpRequests, acq_log, acq_create, acq_httpGet, acq_copyBody,
                FS.insert, setContent]
          · simp +contextual [download, osCreate, bind, Run.bind, pure, Run.pure, emit, fatal, hc, hdir, hpar,
              hg, hs, httpRequests, acq_log, acq_create, acq_httpGet, FS.insert]

/-- Every event of the image-acquisition step is of its kind, and the step
exits with status 1 when it exits. -/
theorem acquireImage_spec (env : Env) (d : Distro) (fs : FS) :
    (∀ ev ∈ (acquireImage env d fs).events, ev.isAcquire = true) ∧
    (∀ c, (acquireImage env d fs).out = Outcome.exit c → c = 1) := by
  rcases hu : env.userCacheDir with e | userCache
  · simp [acquireImage, bind, Run.bind, pure, Run.pure, emit, fatal, hu, acq_userCacheDir, acq_log]
  · rw [acquireImage_eq env d fs userCache hu]
    obtain ⟨-, -, hex, -, hev⟩ := download_spec env d
      (filepathJoin [filepathJoin [userCache, "within", "mkvm"], "qcow2", d.sha256Sum])
      (cacheDirsMade (filepathJoin [userCache, "within", "mkvm"]) fs)
    rcases cacheDirsMade (filepathJoin [userCache, "within", "mkvm"]) fs
      (filepathJoin [filepathJoin [userCache, "within", "mkvm"], "qcow2", d.sha256Sum]) with _ | n
    · simp only
      rcases hdl : download env d
        (filepathJoin [filepathJoin [userCache, "within", "mkvm"], "qcow2", d.sha256Sum])
        (cacheDirsMade (filepathJoin [userCache, "within", "mkvm"]) fs) with ⟨ev, fs1, o⟩
      rw [hdl] at hex hev
      simp only at hex hev
      cases o with
      | ok u =>
        simp [acq_userCacheDir, acq_mkdirAll, acq_stat]
        exact hev
      | exit c =>
        simp [acq_userCacheDir, acq_mkdirAll, acq_stat]
        exact ⟨hev, hex c rfl⟩
    · simp [acq_userCacheDir, acq_mkdirAll, acq_stat]

theorem seed_parse : Event.parseTemplates.isSeed = true := rfl
theorem seed_render (s : String) : (Event.renderCloudConfig s).isSeed = true := rfl
theorem seed_mkdirTemp : Event.mkdirTemp.isSeed = true := rfl
theorem seed_create (s : String) : (Event.create s).isSeed = true := rfl
theorem seed_write (s t : String) : (Event.write s t).isSeed = true := rfl
theorem seed_log (s : String) : (Event.log s).isSeed = true := rfl
theorem seed_panic (s : String) : (Event.panic s).isSeed = true := rfl
theorem seed_exec (args : List String) : (Event.exec ("genisoimage" :: args)).isSeed = true := by
  simp [Event.isSeed]

theorem writeSeedFiles_spec (env : Env) (dir : String) (files : List TxtarFile) (fs : FS) :
    (writeSeedFiles env dir files fs).fs = fs ∧
    (∀ ev ∈ (writeSeedFiles env dir files fs).events, ev.isSeed = true) ∧
    (∀ c, (writeSeedFiles env dir files fs).out = Outcome.exit c → c = 1) := by
  induction files with
  | nil => simp [writeSeedFiles, pure, Run.pure]
  | cons file rest ih =>
    obtain ⟨ih1, ih2, ih3⟩ := ih
    rcases hrec : writeSeedFiles env dir rest fs with ⟨evR, fsR, oR⟩
    rw [hrec] at ih1 ih2 ih3
    simp only at ih1 ih2 ih3
    subst ih1
    rcases hc : env.createSeed (filepathJoin [dir, file.name]) with e | u
    · simp [writeSeedFiles, bind, Run.bind, pure, Run.pure, emit, fatal, hc, seed_create, seed_log]
    · rcases hw : env.writeSeed (filepathJoin [dir, file.name]) with e | u
      · simp [writeSeedFiles, bind, Run.bind, pure, Run.pure, emit, fatal, hc, hw, seed_create,
          seed_log, seed_write]
      · cases oR with
        | ok u =>
          simp [writeSeedFiles, bind, Run.bind, pure, Run.pure, emit, fatal, hc, hw, hrec,
            seed_create, seed_write]
          exact ih2
        | exit c =>
          simp [writeSeedFiles, bind, Run.bind, pure, Run.pure, emit, fatal, hc, hw, hrec,
            seed_create, seed_write]
          exact ⟨ih2, ih3 c rfl⟩

/-- Every event of the seed-building step is of its kind, the step leaves the
tracked file system alone and exits with a status that is not 0 when it exits. -/
theorem buildSeed_spec (env : Env) (plan : Plan) (img : Image) (fs : FS) :
    (buildSeed env plan img fs).fs = fs ∧
    (∀ ev ∈ (buildSeed env plan img fs).events, ev.isSeed = true) ∧
    (∀ c, (buildSeed env plan img fs).out = Outcome.exit c → c ≠ 0) ∧
    (∀ iso, (buildSeed env plan img fs).out = Outcome.ok iso →
      iso = filepathJoin [img.cdir, "seed", plan.name ++ "-" ++ plan.distro.name ++ ".iso"]) := by
  rcases hp : env.parseTemplates with e | u
  · simp [buildSeed, bind, Run.bind, pure, Run.pure, emit, fatal, goPanic, hp, seed_parse,
      seed_panic]
  · rcases hcc : env.cloudConfig plan.name with e | text
    · simp [buildSeed, bind, Run.bind, pure, Run.pure, emit, fatal, goPanic, hp, hcc, seed_parse,
        seed_render, seed_log]
    · rcases hm : env.mkdirTemp with e | dir
      · simp [buildSeed, bind, Run.bind, pure, Run.pure, emit, fatal, goPanic, hp, hcc, hm,
          seed_parse, seed_render, seed_log, seed_mkdirTemp]
      · obtain ⟨w1, w2, w3⟩ := writeSeedFiles_spec env dir (env.txtarParse text) fs
        rcases hw : writeSeedFiles env dir (env.txtarParse text) fs with ⟨evW, fsW, oW⟩
        rw [hw] at w1 w2 w3
        simp only at w1 w2 w3
        subst w1
        cases oW with
        | exit c =>
          have := w3 c rfl
          subst this
          simp [buildSeed, bind, Run.bind, pure, Run.pure, emit, fatal, goPanic, hp, hcc, hm, hw,
            seed_parse, seed_render, seed_log, seed_mkdirTemp]
          exact w2
        | ok u =>
          rcases hg : env.genisoimage with e | u
          · simp [buildSeed, bind, Run.bind, pure, Run.pure, emit, fatal, goPanic, hp, hcc, hm, hw,
              hg, run, seed_parse, seed_render, seed_log, seed_mkdirTemp, seed_exec]
            rintro ev (h | h | h | h)
            · exact w2 ev h
            · subst h; rfl
            · subst h; exact seed_exec _
            · subst h; rfl
          · simp [buildSeed, bind, Run.bind, pure, Run.pure, emit, fatal, goPanic, hp, hcc, hm, hw,
              hg, run, seed_parse, seed_render, seed_log, seed_mkdirTemp, seed_exec]
            rintro ev (h | h | h)
            · exact w2 ev h
            · subst h; rfl
            · subst h; exact seed_exec _

/-- The six ways in which the provisioning step (lines 175-218) can end. -/
theorem provision_cases (f : Flags) (env : Env) (plan : Plan) (img : Image) (iso : String)
    (fs : FS) :
    (∃ e, env.uuid = Except.error e ∧
      provision f env plan img iso fs = ⟨[Event.uuidNew, Event.panic e], fs, Outcome.exit 2⟩) ∨
    (∃ vmID e, env.uuid = Except.ok vmID ∧ env.zfsCreate = Except.error e ∧
      provision f env plan img iso fs =
        ⟨Event.uuidNew :: (zfsCreateEvents plan ++
          [Event.log ("can't create zvol " ++ plan.zvol ++ ": " ++ e)]), fs, Outcome.exit 1⟩) ∨
    (∃ vmID e, env.uuid = Except.ok vmID ∧ env.zfsCreate = Except.ok () ∧
      env.qemuImg = Except.error e ∧
      provision f env plan img iso fs =
        ⟨Event.uuidNew :: (zfsCreateEvents plan ++ (importEvents plan img ++
          [Event.log ("can't import qcow2: " ++ e)])), fs, Outcome.exit 1⟩) ∨
    (∃ vmID e, env.uuid = Except.ok vmID ∧ env.zfsCreate = Except.ok () ∧
      env.qemuImg = Except.ok () ∧ env.baseXml (domainParams f plan iso vmID) = Except.error e ∧
      provision f env plan img iso fs =
        ⟨Event.uuidNew :: (zfsCreateEvents plan ++ (importEvents plan img ++
          [Event.renderBase (domainParams f plan iso vmID),
            Event.log ("can't generate VM template: " ++ e)])), fs, Outcome.exit 1⟩) ∨
    (∃ vmID xml e, env.uuid = Except.ok vmID ∧ env.zfsCreate = Except.ok () ∧
      env.qemuImg = Except.ok () ∧ env.baseXml (domainParams f plan iso vmID) = Except.ok xml ∧
      env.domainCreate xml = Except.error e ∧
      provision f env plan img iso fs =
        ⟨Event.uuidNew :: (zfsCreateEvents plan ++ (importEvents plan img ++
          ([Event.renderBase (domainParams f plan iso vmID), Event.domainCreateXML xml] ++
            remedialLines plan e))), fs, Outcome.exit 1⟩) ∨
    (∃ vmID xml dom, env.uuid = Except.ok vmID ∧ env.zfsCreate = Except.ok () ∧
      env.qemuImg = Except.ok () ∧ env.baseXml (domainParams f plan iso vmID) = Except.ok xml ∧
      env.domainCreate xml = Except.ok dom ∧
      provision f env plan img iso fs =
        ⟨Event.uuidNew :: (zfsCreateEvents plan ++ (importEvents plan img ++
          [Event.renderBase (domainParams f plan iso vmID), Event.domainCreateXML xml,
            Event.log ("created " ++ dom)])), fs, Outcome.ok ()⟩) := by
  rcases hu : env.uuid with e | vmID
  · left
    exact ⟨e, rfl, by simp [provision, bind, Run.bind, emit, goPanic, hu]⟩
  · right
    rcases hz : env.zfsCreate with e | u
    · left
      exact ⟨vmID, e, rfl, rfl, by
        simp [provision, bind, Run.bind, emit, fatal, pure, Run.pure, run, hu, hz,
          zfsCreateEvents]⟩
    · right
      rcases hq : env.qemuImg with e | u
      · left
        exact ⟨vmID, e, rfl, rfl, rfl, by
          simp [provision, bind, Run.bind, emit, fatal, pure, Run.pure, run, hu, hz, hq,
            zfsCreateEvents, importEvents]⟩
      · right
        rcases hb : env.baseXml (domainParams f plan iso vmID) with e | xml
        · left
          refine ⟨vmID, e, rfl, rfl, rfl, hb, ?_⟩
          unfold domainParams at hb
          simp [provision, bind, Run.bind, emit, fatal, pure, Run.pure, run, hu, hz, hq, hb,
            zfsCreateEvents, importEvents, domainParams]
        · right
          rcases hd : env.domainCreate xml with e | dom
          · left
            refine ⟨vmID, xml, e, rfl, rfl, rfl, hb, hd, ?_⟩
            unfold domainParams at hb
            simp [provision, bind, Run.bind, emit, fatal, pure, Run.pure, run, hu, hz, hq, hb, hd,
              zfsCreateEvents, importEvents, domainParams, mkVM, exit, remedialLines]
          · right
            refine ⟨vmID, xml, dom, rfl, rfl, rfl, hb, hd, ?_⟩
            unfold domainParams at hb
            simp [provision, bind, Run.bind, emit, fatal, pure, Run.pure, run, hu, hz, hq, hb, hd,
              zfsCreateEvents, importEvents, domainParams, mkVM, exit]

/-- The result of `runMain` in terms of `main`. -/
theorem runMain_eq (sem : LoopVar) (f : Flags) (env : Env) (fs : FS) :
    (runMain sem f env fs).events = (main sem f env fs).events ∧
    (runMain sem f env fs).fs = (main sem f env fs).fs ∧
    (∀ c, (main sem f env fs).out = Outcome.exit c → (runMain sem f env fs).exitCode = c) ∧
    (∀ u, (main sem f env fs).out = Outcome.ok u → (runMain sem f env fs).exitCode = 0) := by
  unfold runMain
  rcases main sem f env fs with ⟨ev, fs1, o⟩
  cases o <;> simp

/-- A run of `main` is one of four: it ends while planning, in the
image-acquisition step, in the seed-building step, or in the provisioning
step (where it may also succeed). -/
theorem runMain_cases (sem : LoopVar) (f : Flags) (env : Env) (fs : FS) :
    (∃ c, c ≠ 0 ∧ (runMain sem f env fs).exitCode = c ∧ (runMain sem f env fs).fs = fs ∧
      (∀ ev ∈ (runMain sem f env fs).events, ev.beforeConfirmation = true) ∧
      (runMain sem f env fs).events = (planning sem f env fs).events) ∨
    (∃ plan pre catalog,
      (∀ ev ∈ pre, ev.beforeConfirmation = true) ∧
      env.distros = Except.ok catalog ∧
      (resolveDistro sem f.distro f.zvolSize catalog).found = true ∧
      plan.distro = (resolveDistro sem f.distro f.zvolSize catalog).distro ∧
      plan.size = (resolveDistro sem f.distro f.zvolSize catalog).size ∧
      plan.zvol = filepathJoin [f.zvolPrefix, plan.name] ∧
      (f.name ≠ "" → plan.name = f.name) ∧
      randomMac env.cryptoRand = Except.ok plan.macAddress ∧
      (planning sem f env fs).events = pre ++ [Event.readStdin] ∧
      ((∃ c, (acquireImage env plan.distro fs).out = Outcome.exit c ∧
          (runMain sem f env fs).events =
            pre ++ Event.readStdin :: (acquireImage env plan.distro fs).events ∧
          (runMain sem f env fs).exitCode = 1 ∧
          (runMain sem f env fs).fs = (acquireImage env plan.distro fs).fs) ∨
       (∃ img, (acquireImage env plan.distro fs).out = Outcome.ok img ∧
          ((∃ c, c ≠ 0 ∧
              (runMain sem f env fs).events =
                pre ++ Event.readStdin :: ((acquireImage env plan.distro fs).events ++
                  (buildSeed env plan img (acquireImage env plan.distro fs).fs).events) ∧
              (runMain sem f env fs).exitCode = c) ∨
           (∃ iso,
              iso = filepathJoin [img.cdir, "seed", plan.name ++ "-" ++ plan.distro.name ++ ".iso"] ∧
              (runMain sem f env fs).events =
                pre ++ Event.readStdin :: ((acquireImage env plan.distro fs).events ++
                  ((buildSeed env plan img (acquireImage env plan.distro fs).fs).events ++
                  (provision f env plan img iso (acquireImage env plan.distro fs).fs).events)) ∧
              (∀ c, (provision f env plan img iso (acquireImage env plan.distro fs).fs).out =
                  Outcome.exit c → (runMain sem f env fs).exitCode = c) ∧
              (∀ u, (provision f env plan img iso (acquireImage env plan.distro fs).fs).out =
                  Outcome.ok u → (runMain sem f env fs).exitCode = 0)))))) := by
  obtain ⟨hev, hfs, hexit, hok⟩ := runMain_eq sem f env fs
  rw [hev, hfs]
  obtain ⟨pfs, hp⟩ := planning_spec sem f env fs
  rcases hp with ⟨c, hout, hc, hall⟩ | ⟨plan, pre, catalog, hout, hevs, hpre, hd, hfound, h1, h2, h3,
    h4, h5⟩
  · left
    have hm : main sem f env fs = ⟨(planning sem f env fs).events, (planning sem f env fs).fs,
        Outcome.exit c⟩ := bind_of_exit _ _ fs c hout
    refine ⟨c, hc, hexit c (by rw [hm]), ?_, ?_, ?_⟩
    · rw [hm]; exact pfs
    · rw [hm]; exact hall
    · rw [hm]
  · right
    refine ⟨plan, pre, catalog, hpre, hd, hfound, h1, h2, h3, h4, h5, hevs, ?_⟩
    have hm1 := bind_of_ok (planning sem f env)
      (fun plan => do
        let img ← acquireImage env plan.distro
        let isoPath ← buildSeed env plan img
        provision f env plan img isoPath) fs plan hout
    rw [pfs, hevs] at hm1
    beta_reduce at hm1
    have hmain : main sem f env fs = _ := hm1
    obtain ⟨-, haex⟩ := acquireImage_spec env plan.distro fs
    rcases hao : (acquireImage env plan.distro fs).out with img | c
    · right
      refine ⟨img, rfl, ?_⟩
      have hm2 := bind_of_ok (acquireImage env plan.distro)
        (fun img => do
          let isoPath ← buildSeed env plan img
          provision f env plan img isoPath) fs img hao
      beta_reduce at hm2
      obtain ⟨sfs, -, hsex, hsiso⟩ := buildSeed_spec env plan img (acquireImage env plan.distro fs).fs
      rcases hso : (buildSeed env plan img (acquireImage env plan.distro fs).fs).out with iso | c
      · right
        have hm3 := bind_of_ok (buildSeed env plan img)
          (fun isoPath => provision f env plan img isoPath) (acquireImage env plan.distro fs).fs
          iso hso
        rw [sfs] at hm3
        beta_reduce at hm3
        refine ⟨iso, hsiso iso hso, ?_, ?_, ?_⟩
        · rw [hmain, hm2, hm3]; simp
        · intro c hc
          apply hexit
          rw [hmain, hm2, hm3]; exact hc
        · intro u hu
          apply hok u
          rw [hmain, hm2, hm3]; exact hu
      · left
        have hm3 := bind_of_exit (buildSeed env plan img)
          (fun isoPath => provision f env plan img isoPath) (acquireImage env plan.distro fs).fs
          c hso
        refine ⟨c, hsex c hso, ?_, ?_⟩
        · rw [hmain, hm2, hm3]; simp
        · apply hexit
          rw [hmain, hm2, hm3]
    · left
      have hc1 := haex c hao
      subst hc1
      have hm2 := bind_of_exit (acquireImage env plan.distro)
        (fun img => do
          let isoPath ← buildSeed env plan img
          provision f env plan img isoPath) fs 1 hao
      refine ⟨1, rfl, ?_, ?_, ?_⟩
      · rw [hmain, hm2]; simp
      · apply hexit
        rw [hmain, hm2]
      · rw [hmain, hm2]

/-! ## Kinds of events exclude each other -/

theorem before_not_later (ev : Event) (h : ev.beforeConfirmation = true) :
    ev.isMutating = false ∧ ev.isZfsCreate = false ∧ ev.isImageImport = false ∧
      ev.isDomainCreate = false ∧ ev.isRenderBase = false ∧ ev ≠ Event.readStdin := by
  cases ev <;> simp_all [Event.beforeConfirmation, Event.isConsole, Event.isEmbeddedLoad,
    Event.isRandom, Event.isHypervisorConnect, Event.isMutating, Event.isZfsCreate,
    Event.isImageImport, Event.isDomainCreate, Event.isRenderBase]

theorem acquire_not_later (ev : Event) (h : ev.isAcquire = true) :
    ev.isZfsCreate = false ∧ ev.isImageImport = false ∧ ev.isDomainCreate = false ∧
      ev.isRenderBase = false ∧ ev.isStdout = false ∧ ev ≠ Event.readStdin := by
  cases ev <;> simp_all [Event.isAcquire, Event.isZfsCreate, Event.isImageImport,
    Event.isDomainCreate, Event.isRenderBase, Event.isStdout]

theorem seed_not_later (ev : Event) (h : ev.isSeed = true) :
    ev.isZfsCreate = false ∧ ev.isImageImport = false ∧ ev.isDomainCreate = false ∧
      ev.isRenderBase = false ∧ ev.isStdout = false ∧ ev ≠ Event.readStdin := by
  cases ev with
  | exec args =>
    simp only [Event.isSeed, decide_eq_true_eq] at h
    rcases args with _ | ⟨a, rest⟩
    · simp at h
    · simp only [List.take_succ_cons, List.take_zero, List.cons.injEq, and_true] at h
      subst h
      simp [Event.isZfsCreate, Event.isImageImport, Event.isDomainCreate, Event.isRenderBase,
        Event.isStdout]
  | _ => simp_all [Event.isSeed, Event.isZfsCreate, Event.isImageImport, Event.isDomainCreate,
      Event.isRenderBase, Event.isStdout]

/-- A list splits in only one way around its only element with a property. -/
theorem split_unique {α : Type} (P : α → Prop) :
    ∀ (a a' b b' : List α) (x x' : α), a ++ x :: b = a' ++ x' :: b' → P x →
      (∀ y ∈ a', ¬ P y) → (∀ y ∈ b', ¬ P y) → a = a' ∧ x = x' ∧ b = b' := by
  intro a
  induction a with
  | nil =>
    intro a' b b' x x' h hx ha' hb'
    cases a' with
    | nil => simp at h; exact ⟨rfl, h.1, h.2⟩
    | cons y a'' =>
      simp at h
      exact absurd (h.1 ▸ hx) (ha' y (by simp))
  | cons z a1 ih =>
    intro a' b b' x x' h hx ha' hb'
    cases a' with
    | nil =>
      simp at h
      exact absurd hx (hb' x (by rw [← h.2]; simp))
    | cons y a'' =>
      simp at h
      obtain ⟨h1, h2, h3⟩ := ih a'' b b' x x' h.2 hx (fun w hw => ha' w (by simp [hw])) hb'
      exact ⟨by rw [h.1, h1], h2, h3⟩

/-- A prefix without the element `x` of a list split at its first `x` lies in
the part before that `x`. -/
theorem front_before {α : Type} (x : α) :
    ∀ (pre post a b : List α), pre ++ post = a ++ x :: b → x ∉ pre → ∀ y ∈ pre, y ∈ a := by
  intro pre
  induction pre with
  | nil => intro post a b _ _ y hy; cases hy
  | cons z pre1 ih =>
    intro post a b h hx y hy
    cases a with
    | nil =>
      simp at h
      exact absurd (by simp [h.1]) hx
    | cons w a1 =>
      simp at h
      rcases List.mem_cons.mp hy with hy1 | hy1
      · subst hy1; simp [h.1]
      · exact List.mem_cons_of_mem _ (ih post a1 b h.2 (fun hm => hx (List.mem_cons_of_mem _ hm)) y hy1)

/-- Go `int` multiplication without overflow is multiplication. -/
theorem wrapInt64_of_range (x : Int) (hlo : -2 ^ 63 ≤ x) (hhi : x < 2 ^ 63) : wrapInt64 x = x := by
  unfold wrapInt64
  norm_num at hlo hhi ⊢
  omega

/-- A run either ends before the prompt, with nothing but permitted events, or
its events are permitted ones, then the read of standard input, then the
rest. -/
theorem runMain_prompt (sem : LoopVar) (f : Flags) (env : Env) (fs : FS) :
    (∀ ev ∈ (runMain sem f env fs).events, ev.beforeConfirmation = true) ∨
    (∃ pre rest, (runMain sem f env fs).events = pre ++ Event.readStdin :: rest ∧
      ∀ ev ∈ pre, ev.beforeConfirmation = true) := by
  rcases runMain_cases sem f env fs with ⟨c, -, -, -, h, -⟩ |
    ⟨plan, pre, catalog, hpre, -, -, -, -, -, -, -, -, h⟩
  · left; exact h
  · right
    rcases h with ⟨c, -, h, -⟩ | ⟨img, -, ⟨c, -, h, -⟩ | ⟨iso, -, h, -⟩⟩
    · exact ⟨pre, _, h, hpre⟩
    · exact ⟨pre, _, h, hpre⟩
    · exact ⟨pre, _, h, hpre⟩

/-- C9. In every run of `main`, every event that is not preceded by the read of
standard input (the confirmation) is non-mutating: it is console output, a load
of embedded data, a use of a random source or a step of connecting to the
hypervisor daemon. No directory or file creation, download, child process or
domain creation happens before the confirmation read. -/
theorem no_mutation_before_confirmation (sem : LoopVar) (f : Flags) (env : Env) (fs : FS)
    (pre post : List Event) (h : (runMain sem f env fs).events = pre ++ post)
    (hno : Event.readStdin ∉ pre) :
    ∀ ev ∈ pre, ev.isMutating = false ∧ ev.beforeConfirmation = true := by
  intro ev hev
  have hb : ev.beforeConfirmation = true := by
    rcases runMain_prompt sem f env fs with hall | ⟨pre0, rest, hsplit, hpre0⟩
    · exact hall ev (by rw [h]; exact List.mem_append_left _ hev)
    · rw [h] at hsplit
      exact hpre0 ev (front_before Event.readStdin pre post pre0 rest hsplit hno ev hev)
  exact ⟨(before_not_later ev hb).1, hb⟩

theorem zfsCreate_exec (size : Int) (zvol : String) :
    (Event.exec (zfsCreateArgs size zvol)).isZfsCreate = true := by
  simp [Event.isZfsCreate, zfsCreateArgs]

theorem provisioning_false (ev : Event) (h : ev.isProvisioning = false) :
    ev.isZfsCreate = false ∧ ev.isImageImport = false ∧ ev.isRenderBase = false ∧
      ev.isDomainCreate = false := by
  simpa [Event.isProvisioning, and_assoc] using h

theorem before_not_provisioning (ev : Event) (h : ev.beforeConfirmation = true) :
    ev.isProvisioning = false := by
  obtain ⟨-, h1, h2, h3, h4, -⟩ := before_not_later ev h
  simp [Event.isProvisioning, h1, h2, h3, h4]

theorem acquire_not_provisioning (ev : Event) (h : ev.isAcquire = true) :
    ev.isProvisioning = false := by
  obtain ⟨h1, h2, h3, h4, -⟩ := acquire_not_later ev h
  simp [Event.isProvisioning, h1, h2, h3, h4]

theorem seed_not_provisioning (ev : Event) (h : ev.isSeed = true) :
    ev.isProvisioning = false := by
  obtain ⟨h1, h2, h3, h4, -⟩ := seed_not_later ev h
  simp [Event.isProvisioning, h1, h2, h3, h4]

/-- A run is a stretch of events without any provisioning event, followed
either by nothing (the run failed before the provisioning step) or by the
events of the provisioning step. -/
theorem runMain_shape (sem : LoopVar) (f : Flags) (env : Env) (fs : FS) :
    ∃ early tail, (runMain sem f env fs).events = early ++ tail ∧
      (∀ ev ∈ early, ev.isProvisioning = false) ∧
      ((tail = [] ∧ (runMain sem f env fs).exitCode ≠ 0) ∨
       (∃ plan img iso fs1 catalog, tail = (provision f env plan img iso fs1).events ∧
          env.distros = Except.ok catalog ∧
          plan.distro = (resolveDistro sem f.distro f.zvolSize catalog).distro ∧
          plan.size = (resolveDistro sem f.distro f.zvolSize catalog).size ∧
          plan.zvol = filepathJoin [f.zvolPrefix, plan.name] ∧
          (f.name ≠ "" → plan.name = f.name) ∧
          (∀ c, (provision f env plan img iso fs1).out = Outcome.exit c →
            (runMain sem f env fs).exitCode = c) ∧
          (∀ u, (provision f env plan img iso fs1).out = Outcome.ok u →
            (runMain sem f env fs).exitCode = 0))) := by
  rcases runMain_cases sem f env fs with ⟨c, hc, hcode, -, hall, -⟩ |
    ⟨plan, pre0, catalog, hpre0, hd, -, hdist, hsize, hzvol, hname, -, -, h⟩
  · exact ⟨_, [], (List.append_nil _).symm, fun ev hev => before_not_provisioning ev (hall ev hev),
      Or.inl ⟨rfl, by rw [hcode]; exact hc⟩⟩
  · obtain ⟨haev, -⟩ := acquireImage_spec env plan.distro fs
    have hpre : ∀ ev ∈ pre0 ++ [Event.readStdin], ev.isProvisioning = false := by
      intro ev hev
      simp only [List.mem_append, List.mem_singleton] at hev
      rcases hev with h1 | h1
      · exact before_not_provisioning ev (hpre0 ev h1)
      · subst h1; rfl
    rcases h with ⟨c, -, hevs, hcode, -⟩ | ⟨img, -, h⟩
    · refine ⟨_, [], (List.append_nil _).symm, ?_, Or.inl ⟨rfl, by rw [hcode]; decide⟩⟩
      intro ev hev
      rw [hevs] at hev
      simp only [List.mem_append, List.mem_cons] at hev
      rcases hev with h1 | h1 | h1
      · exact hpre ev (by simp [h1])
      · exact hpre ev (by simp [h1])
      · exact acquire_not_provisioning ev (haev ev h1)
    · obtain ⟨-, hsev, -, -⟩ := buildSeed_spec env plan img (acquireImage env plan.distro fs).fs
      have hmid : ∀ ev ∈ pre0 ++ Event.readStdin :: ((acquireImage env plan.distro fs).events ++
          (buildSeed env plan img (acquireImage env plan.distro fs).fs).events),
          ev.isProvisioning = false := by
        intro ev hev
        simp only [List.mem_append, List.mem_cons] at hev
        rcases hev with h1 | h1 | h1 | h1
        · exact hpre ev (by simp [h1])
        · exact hpre ev (by simp [h1])
        · exact acquire_not_provisioning ev (haev ev h1)
        · exact seed_not_provisioning ev (hsev ev h1)
      rcases h with ⟨c, hc, hevs, hcode⟩ | ⟨iso, -, hevs, hexit, hok⟩
      · exact ⟨_, [], (List.append_nil _).symm, by rw [hevs]; exact hmid,
          Or.inl ⟨rfl, by rw [hcode]; exact hc⟩⟩
      · refine ⟨_, _, ?_, hmid, Or.inr ⟨plan, img, iso, _, catalog, rfl, hd, hdist, hsize, hzvol,
          hname, hexit, hok⟩⟩
        rw [hevs]; simp

/-- C6. When the storage-manager command `sudo zfs create -V <n>G <zvol>` returns
an error, no run contains the `qemu-img convert` import, the rendering of
`base.xml` or the libvirt call `DomainCreateXML`, no run exits with status 0,
and in a run that reaches the command the only thing after it is the fatal log
line `can't create zvol <zvol>: <error>`, followed by exit status 1. -/
theorem zfs_create_failure_is_fatal (sem : LoopVar) (f : Flags) (env : Env) (fs : FS)
    (e : String) (hz : env.zfsCreate = Except.error e) :
    (∀ ev ∈ (runMain sem f env fs).events,
      ev.isImageImport = false ∧ ev.isRenderBase = false ∧ ev.isDomainCreate = false) ∧
    (runMain sem f env fs).exitCode ≠ 0 ∧
    (∀ pre post args, (runMain sem f env fs).events = pre ++ Event.exec args :: post →
      (Event.exec args).isZfsCreate = true →
      (runMain sem f env fs).exitCode = 1 ∧
      ∃ size zvol, args = zfsCreateArgs size zvol ∧
        post = [Event.log ("can't create zvol " ++ zvol ++ ": " ++ e)]) := by
  obtain ⟨early, tail, hevs, hearly, htail⟩ := runMain_shape sem f env fs
  have hnz : ∀ ev ∈ early, ¬ ev.isZfsCreate = true := fun ev hev hP => by
    rw [(provisioning_false ev (hearly ev hev)).1] at hP; cases hP
  rcases htail with ⟨rfl, hcode⟩ | ⟨plan, img, iso, fs1, catalog, rfl, -, -, -, -, -, hexit, -⟩
  · rw [List.append_nil] at hevs
    refine ⟨fun ev hev => (provisioning_false ev (hearly ev (hevs ▸ hev))).2, hcode, ?_⟩
    intro pre post args hsplit hargs
    exact absurd hargs (hnz _ (by rw [← hevs, hsplit]; simp))
  · rcases provision_cases f env plan img iso fs1 with
      ⟨e1, -, hp⟩ | ⟨vmID, e1, -, hz1, hp⟩ | ⟨_, _, -, hz1, -⟩ | ⟨_, _, -, hz1, -⟩ |
      ⟨_, _, _, -, hz1, -⟩ | ⟨_, _, _, -, hz1, -⟩
    · rw [hp] at hevs hexit
      have hall : ∀ ev ∈ (runMain sem f env fs).events, ev.isProvisioning = false := by
        intro ev hev
        rw [hevs] at hev
        simp only [List.mem_append, List.mem_cons, List.mem_singleton, List.not_mem_nil,
          or_false] at hev
        rcases hev with h1 | h1 | h1
        · exact hearly ev h1
        · subst h1; rfl
        · subst h1; rfl
      refine ⟨fun ev hev => (provisioning_false ev (hall ev hev)).2,
        by rw [hexit 2 rfl]; decide, ?_⟩
      intro pre post args hsplit hargs
      have := (provisioning_false _ (hall (Event.exec args) (by rw [hsplit]; simp))).1
      rw [this] at hargs; cases hargs
    · rw [hz] at hz1
      cases hz1
      rw [hp] at hevs hexit
      have hevs2 : (runMain sem f env fs).events =
          (early ++ [Event.uuidNew, Event.log
              ("running command: " ++ joinSpace (zfsCreateArgs plan.size plan.zvol))]) ++
          Event.exec (zfsCreateArgs plan.size plan.zvol) ::
            [Event.log ("can't create zvol " ++ plan.zvol ++ ": " ++ e)] := by
        rw [hevs]; simp [zfsCreateEvents]
      have hfront : ∀ ev ∈ early ++ [Event.uuidNew, Event.log
          ("running command: " ++ joinSpace (zfsCreateArgs plan.size plan.zvol))],
          ev.isProvisioning = false := by
        intro ev hev
        simp only [List.mem_append, List.mem_cons, List.mem_singleton, List.not_mem_nil,
          or_false] at hev
        rcases hev with h1 | h1 | h1
        · exact hearly ev h1
        · subst h1; rfl
        · subst h1; rfl
      refine ⟨?_, by rw [hexit 1 rfl]; decide, ?_⟩
      · intro ev hev
        rw [hevs2] at hev
        simp only [List.mem_append, List.mem_cons, List.mem_singleton, List.not_mem_nil,
          or_false] at hev
        rcases hev with h1 | h1 | h1
        · exact (provisioning_false ev (hfront ev (by
            simp only [List.mem_append, List.mem_cons, List.mem_singleton, List.not_mem_nil,
              or_false]
            exact h1))).2
        · subst h1; simp [Event.isImageImport, Event.isRenderBase, Event.isDomainCreate,
            zfsCreateArgs]
        · subst h1; simp [Event.isImageImport, Event.isRenderBase, Event.isDomainCreate]
      · intro pre post args hsplit hargs
        rw [hevs2] at hsplit
        obtain ⟨-, h2, h3⟩ := split_unique (fun ev => ev.isZfsCreate = true) _ _ _ _ _ _
          hsplit.symm hargs
          (fun y hy hP => by
            have hP2 : y.isZfsCreate = true := hP
            rw [(provisioning_false y (hfront y hy)).1] at hP2; cases hP2)
          (fun y hy hP => by
            simp only [List.mem_singleton] at hy
            subst hy
            have hP2 : (Event.log ("can't create zvol " ++ plan.zvol ++ ": " ++ e)).isZfsCreate
              = true := hP
            cases hP2)
        refine ⟨hexit 1 rfl, plan.size, plan.zvol, ?_, h3⟩
        injection h2
    all_goals (rw [hz] at hz1; cases hz1)

/-- C7. When `mkVM` (the libvirt call `DomainCreateXML`) is reached and returns an
error, the run consists of events without any `zfs create`, then the command
`sudo zfs create -V <n>G <v>`, then events without any `zfs create`, then the
four log lines that end with `zfs destroy <v>`, and the exit status is 1. The
`<v>` of the log line is the very string passed to `zfs create`:
`filepath.Join(zvolPrefix, name)`. -/
theorem failed_domain_names_created_volume (sem : LoopVar) (f : Flags) (env : Env) (fs : FS)
    (xml e : String) (hmem : Event.domainCreateXML xml ∈ (runMain sem f env fs).events)
    (hd : env.domainCreate xml = Except.error e) :
    ∃ pre mid size name,
      (f.name ≠ "" → name = f.name) ∧
      (runMain sem f env fs).events =
        pre ++ Event.exec ["sudo", "zfs", "create", "-V", fmtInt size ++ "G",
            filepathJoin [f.zvolPrefix, name]] ::
          (mid ++ [Event.log ("can't create domain for " ++ name ++ ": " ++ e),
            Event.log "you should run this command:", Event.log "",
            Event.log ("zfs destroy " ++ filepathJoin [f.zvolPrefix, name])]) ∧
      (∀ ev ∈ pre ++ mid, ev.isZfsCreate = false) ∧
      (runMain sem f env fs).exitCode = 1 := by
  obtain ⟨early, tail, hevs, hearly, htail⟩ := runMain_shape sem f env fs
  have hne : ∀ ev ∈ early, ev ≠ Event.domainCreateXML xml := by
    intro ev hev heq
    have := (provisioning_false ev (hearly ev hev)).2.2.2
    rw [heq] at this
    cases this
  rcases htail with ⟨rfl, -⟩ | ⟨plan, img, iso, fs1, catalog, rfl, -, -, -, hzvol, hname, hexit, -⟩
  · rw [List.append_nil] at hevs
    rw [hevs] at hmem
    exact absurd rfl (hne _ hmem)
  · rw [hevs] at hmem
    have hin : Event.domainCreateXML xml ∈ (provision f env plan img iso fs1).events := by
      rcases List.mem_append.mp hmem with h | h
      · exact absurd rfl (hne _ h)
      · exact h
    rcases provision_cases f env plan img iso fs1 with
      ⟨e1, -, hp⟩ | ⟨vmID, e1, -, -, hp⟩ | ⟨vmID, e1, -, -, -, hp⟩ | ⟨vmID, e1, -, -, -, -, hp⟩ |
      ⟨vmID, xml1, e1, -, -, -, -, hd1, hp⟩ | ⟨vmID, xml1, dom, -, -, -, -, hd1, hp⟩
    · rw [hp] at hin; simp at hin
    · rw [hp] at hin; simp [zfsCreateEvents] at hin
    · rw [hp] at hin; simp [zfsCreateEvents, importEvents] at hin
    · rw [hp] at hin; simp [zfsCreateEvents, importEvents] at hin
    · rw [hp] at hin hevs hexit
      have hx : xml = xml1 := by
        simpa [zfsCreateEvents, importEvents, remedialLines] using hin
      subst hx
      rw [hd] at hd1
      cases hd1
      refine ⟨early ++ [Event.uuidNew, Event.log
          ("running command: " ++ joinSpace (zfsCreateArgs plan.size plan.zvol))],
        importEvents plan img ++ [Event.renderBase (domainParams f plan iso vmID),
          Event.domainCreateXML xml], plan.size, plan.name, hname, ?_, ?_, hexit 1 rfl⟩
      · rw [hevs, ← hzvol]
        simp [zfsCreateEvents, remedialLines, zfsCreateArgs]
      · intro ev hev
        simp only [List.mem_append, List.mem_cons, List.mem_singleton, List.not_mem_nil,
          or_false, importEvents] at hev
        rcases hev with (h | h | h) | (h | h) | h | h
        · exact (provisioning_false ev (hearly ev h)).1
        · subst h; rfl
        · subst h; rfl
        · subst h; rfl
        · subst h; simp [Event.isZfsCreate, qemuImgArgs]
        · subst h; rfl
        · subst h; rfl
    · rw [hp] at hin
      have hx : xml = xml1 := by
        simpa [zfsCreateEvents, importEvents] using hin
      subst hx
      rw [hd] at hd1
      cases hd1

set_option maxRecDepth 100000 in
/-- C10. When `memory * 1024` fits a 64-bit `int`, every rendering of `base.xml`
in a run gets `Memory = memory * 1024`, every descriptor submitted with
`DomainCreateXML` is the output of `base.xml` for parameters with that
`Memory`, and a run that exits with status 0 has rendered `base.xml` and
submitted the descriptor. In the end-to-end scenario (`-memory 512`) the
template gets `Memory = 524288` and the run exits with status 0. -/
theorem domain_memory_is_kibibytes (sem : LoopVar) (f : Flags) (env : Env) (fs : FS)
    (hlo : -2 ^ 63 ≤ f.memory * 1024) (hhi : f.memory * 1024 < 2 ^ 63) :
    (∀ p, Event.renderBase p ∈ (runMain sem f env fs).events → p.memory = f.memory * 1024) ∧
    (∀ xml, Event.domainCreateXML xml ∈ (runMain sem f env fs).events →
      ∃ p, p.memory = f.memory * 1024 ∧ env.baseXml p = Except.ok xml ∧
        Event.renderBase p ∈ (runMain sem f env fs).events) ∧
    ((runMain sem f env fs).exitCode = 0 →
      ∃ p xml, p.memory = f.memory * 1024 ∧ env.baseXml p = Except.ok xml ∧
        Event.renderBase p ∈ (runMain sem f env fs).events ∧
        Event.domainCreateXML xml ∈ (runMain sem f env fs).events) ∧
    (scenarioFlags.memory = 512 ∧
      (runMain sem scenarioFlags (scenarioEnv [alpine]) emptyFS).exitCode = 0 ∧
      Event.renderBase (DomainParams.mk "test1" "6ba7b810-9dad-11d1-80b4-00c04fd430c8" 524288
          "rpool/mkvm-test/test1" "/home/u/.cache/within/mkvm/seed/test1-alpine-edge.iso"
          "5e:10:a2:03:ee:ff") ∈
        (runMain sem scenarioFlags (scenarioEnv [alpine]) emptyFS).events) := by
  rw [← and_assoc, ← and_assoc]
  refine ⟨?_, by cases sem <;> decide⟩
  rw [and_assoc]
  obtain ⟨early, tail, hevs, hearly, htail⟩ := runMain_shape sem f env fs
  have hmemory : ∀ plan iso vmID, (domainParams f plan iso vmID).memory = f.memory * 1024 :=
    fun _ _ _ => wrapInt64_of_range _ hlo hhi
  have hne1 : ∀ p, Event.renderBase p ∉ early := by
    intro p hev
    have := (provisioning_false _ (hearly _ hev)).2.2.1
    cases this
  have hne2 : ∀ x, Event.domainCreateXML x ∉ early := by
    intro x hev
    have := (provisioning_false _ (hearly _ hev)).2.2.2
    cases this
  rcases htail with ⟨rfl, hcode⟩ | ⟨plan, img, iso, fs1, catalog, rfl, -, -, -, -, -, hexit, hok⟩
  · rw [List.append_nil] at hevs
    rw [hevs]
    exact ⟨fun p hp => absurd hp (hne1 p), fun x hx => absurd hx (hne2 x),
      fun h => absurd h hcode⟩
  · rw [hevs]
    rcases provision_cases f env plan img iso fs1 with
      ⟨e1, -, hp⟩ | ⟨vmID, e1, -, -, hp⟩ | ⟨vmID, e1, -, -, -, hp⟩ | ⟨vmID, e1, -, -, -, -, hp⟩ |
      ⟨vmID, xml1, e1, -, -, -, hb, -, hp⟩ | ⟨vmID, xml1, dom, -, -, -, hb, -, hp⟩
    · rw [hp] at hexit ⊢
      refine ⟨?_, ?_, fun h => ?_⟩
      · intro p hp; simp at hp; exact absurd hp (hne1 p)
      · intro x hx; simp at hx; exact absurd hx (hne2 x)
      · rw [hexit 2 rfl] at h; cases h
    · rw [hp] at hexit ⊢
      refine ⟨?_, ?_, fun h => ?_⟩
      · intro p hp; simp [zfsCreateEvents] at hp; exact absurd hp (hne1 p)
      · intro x hx; simp [zfsCreateEvents] at hx; exact absurd hx (hne2 x)
      · rw [hexit 1 rfl] at h; cases h
    · rw [hp] at hexit ⊢
      refine ⟨?_, ?_, fun h => ?_⟩
      · intro p hp; simp [zfsCreateEvents, importEvents] at hp; exact absurd hp (hne1 p)
      · intro x hx; simp [zfsCreateEvents, importEvents] at hx; exact absurd hx (hne2 x)
      · rw [hexit 1 rfl] at h; cases h
    · rw [hp] at hexit ⊢
      refine ⟨?_, ?_, fun h => ?_⟩
      · intro p hp
        simp [zfsCreateEvents, importEvents] at hp
        rcases hp with hp | hp
        · exact absurd hp (hne1 p)
        · rw [hp]; exact hmemory _ _ _
      · intro x hx; simp [zfsCreateEvents, importEvents] at hx; exact absurd hx (hne2 x)
      · rw [hexit 1 rfl] at h; cases h
    · rw [hp] at hexit ⊢
      refine ⟨?_, ?_, fun h => ?_⟩
      · intro p hp
        simp [zfsCreateEvents, importEvents, remedialLines] at hp
        rcases hp with hp | hp
        · exact absurd hp (hne1 p)
        · rw [hp]; exact hmemory _ _ _
      · intro x hx
        simp [zfsCreateEvents, importEvents, remedialLines] at hx
        rcases hx with hx | hx
        · exact absurd hx (hne2 x)
        · subst hx
          exact ⟨_, hmemory plan iso vmID, hb, by simp [zfsCreateEvents, importEvents]⟩
      · rw [hexit 1 rfl] at h; cases h
    · rw [hp] at hexit ⊢
      have hr : Event.renderBase (domainParams f plan iso vmID) ∈
          early ++ (⟨Event.uuidNew :: (zfsCreateEvents plan ++ (importEvents plan img ++
            [Event.renderBase (domainParams f plan iso vmID), Event.domainCreateXML xml1,
              Event.log ("created " ++ dom)])), fs1, Outcome.ok ()⟩ : Step Unit).events := by
        simp [zfsCreateEvents, importEvents]
      refine ⟨?_, ?_, fun _ => ⟨_, xml1, hmemory plan iso vmID, hb, hr, by
        simp [zfsCreateEvents, importEvents]⟩⟩
      · intro p hp
        simp [zfsCreateEvents, importEvents] at hp
        rcases hp with hp | hp
        · exact absurd hp (hne1 p)
        · rw [hp]; exact hmemory _ _ _
      · intro x hx
        simp [zfsCreateEvents, importEvents] at hx
        rcases hx with hx | hx
        · exact absurd hx (hne2 x)
        · subst hx
          exact ⟨_, hmemory plan iso vmID, hb, hr⟩

/-! ## The distro loop -/

theorem loopBody_found (sem : LoopVar) (target : String) (s : Int) (i : Nat) (elem : Distro)
    (st : LoopState) :
    (loopBody sem target s i elem st).found = (st.found || decide (elem.name = target)) := by
  unfold loopBody
  by_cases h : elem.name = target
  · simp only [h, if_true]
    split <;> split <;> simp
  · simp [h]

theorem resolveLoop_found (sem : LoopVar) (target : String) (s : Int) (ds : List Distro) :
    ∀ (i : Nat) (st : LoopState),
      (resolveLoop sem target s ds i st).found =
        (st.found || ds.any (fun d => decide (d.name = target))) := by
  induction ds with
  | nil => intro i st; simp [resolveLoop]
  | cons d rest ih =>
    intro i st
    simp only [resolveLoop, ih, loopBody_found, List.any_cons, Bool.or_assoc]

/-- The loop finds a record exactly when some record has the requested name. -/
theorem resolveDistro_found (sem : LoopVar) (target : String) (s : Int) (ds : List Distro) :
    (resolveDistro sem target s ds).found = true ↔ ∃ d ∈ ds, d.name = target := by
  simp [resolveDistro, resolveLoop_found, initLoopState]

/-- With a name given, or with a list of names to draw from, the name of the
VM is settled with nothing but loads of embedded data and random draws. -/
theorem vmName_ok (f : Flags) (env : Env) (fs : FS)
    (hn : f.name ≠ "" ∨ ∃ ns, env.names = Except.ok ns ∧ ns ≠ []) :
    ∃ evN name, vmName f env fs = ⟨evN, fs, Outcome.ok name⟩ ∧
      (f.name ≠ "" → name = f.name) ∧
      ∀ ev ∈ evN, ev.isEmbeddedLoad = true ∨ ev.isRandom = true := by
  by_cases hname : f.name = ""
  · rcases hn with h | ⟨ns, hns, hne⟩
    · exact absurd hname h
    · have hl : ns.length ≠ 0 := fun h => hne (List.length_eq_zero.mp h)
      refine ⟨[Event.readEmbedded "data/names.json", Event.randIntn ns.length],
        ns.getD (env.randIntn % ns.length) "", ?_, fun h => absurd hname h, ?_⟩
      · simp [vmName, getName, bind, Run.bind, pure, Run.pure, emit, hname, hns, hl]
      · intro ev hev
        simp only [List.mem_cons, List.mem_singleton, List.not_mem_nil, or_false] at hev
        rcases hev with h | h
        · subst h; left; rfl
        · subst h; right; rfl
  · exact ⟨[], f.name, by simp [vmName, pure, Run.pure, hname], fun _ => rfl, by simp⟩

theorem runMain_of_planning_exit (sem : LoopVar) (f : Flags) (env : Env) (fs : FS) (c : Nat)
    (h : (planning sem f env fs).out = Outcome.exit c) :
    (runMain sem f env fs).events = (planning sem f env fs).events ∧
      (runMain sem f env fs).exitCode = c ∧ (runMain sem f env fs).fs = fs := by
  obtain ⟨hev, hfs, hexit, -⟩ := runMain_eq sem f env fs
  have hm : main sem f env fs = ⟨(planning sem f env fs).events, (planning sem f env fs).fs,
      Outcome.exit c⟩ := bind_of_exit _ _ fs c h
  refine ⟨by rw [hev, hm], hexit c (by rw [hm]), ?_⟩
  rw [hfs, hm]
  exact (planning_spec sem f env fs).1

theorem provision_no_stdout (f : Flags) (env : Env) (plan : Plan) (img : Image) (iso : String)
    (fs : FS) : ∀ ev ∈ (provision f env plan img iso fs).events, ev.isStdout = false := by
  rcases provision_cases f env plan img iso fs with
    ⟨e1, -, hp⟩ | ⟨vmID, e1, -, -, hp⟩ | ⟨vmID, e1, -, -, -, hp⟩ | ⟨vmID, e1, -, -, -, -, hp⟩ |
    ⟨vmID, xml1, e1, -, -, -, -, -, hp⟩ | ⟨vmID, xml1, dom, -, -, -, -, -, hp⟩ <;>
  · rw [hp]
    simp [zfsCreateEvents, importEvents, remedialLines, Event.isStdout]

theorem header_ne_prompt (distro : String) :
    notFoundHeader distro ≠ "press enter if this looks okay:" := by
  intro h
  have := congrArg String.data h
  simp [notFoundHeader] at this

/-- The planning phase when the catalog loads, the name is settled and no
record matches: the header, every name, exit status 1. -/
theorem planning_not_found (sem : LoopVar) (f : Flags) (env : Env) (fs : FS)
    (catalog : List Distro) (hd : env.distros = Except.ok catalog)
    (hn : f.name ≠ "" ∨ ∃ ns, env.names = Except.ok ns ∧ ns ≠ [])
    (hnot : ∀ d ∈ catalog, d.name ≠ f.distro) :
    ∃ evN, (∀ ev ∈ evN, ev.isEmbeddedLoad = true ∨ ev.isRandom = true) ∧
      planning sem f env fs =
        ⟨(Event.seedRand :: (evN ++ [Event.readEmbedded "data/distros.dhall"])) ++
          Event.stdout (notFoundHeader f.distro) ::
            catalog.map (fun d => Event.stdout (d.name ++ "\n")), fs, Outcome.exit 1⟩ := by
  obtain ⟨evN, name, hv, -, hkind⟩ := vmName_ok f env fs hn
  have hfound : (resolveDistro sem f.distro f.zvolSize catalog).found = false := by
    cases h : (resolveDistro sem f.distro f.zvolSize catalog).found with
    | false => rfl
    | true =>
      obtain ⟨d, hmem, hname⟩ := (resolveDistro_found sem f.distro f.zvolSize catalog).mp h
      exact absurd hname (hnot d hmem)
  refine ⟨evN, hkind, ?_⟩
  simp [planning, bind, Run.bind, emit, pure, Run.pure, getDistros, hv, hd, hfound, exit,
    printNames_apply]

theorem connectToLibvirt_kind (env : Env) (fs : FS) :
    ∀ ev ∈ (connectToLibvirt env fs).events, ev.isHypervisorConnect = true := by
  rcases h1 : env.dial with e | u
  · simp [connectToLibvirt, bind, Run.bind, pure, Run.pure, emit, h1, Event.isHypervisorConnect]
  · rcases h2 : env.authPolkit with e | u
    · simp [connectToLibvirt, bind, Run.bind, pure, Run.pure, emit, h1, h2,
        Event.isHypervisorConnect]
    · rcases h3 : env.connect with e | u <;>
        simp [connectToLibvirt, bind, Run.bind, pure, Run.pure, emit, h1, h2, h3,
          Event.isHypervisorConnect]

theorem isStdout_seedRand : Event.seedRand.isStdout = false := rfl
theorem isStdout_readEmbedded (s : String) : (Event.readEmbedded s).isStdout = false := rfl
theorem isStdout_cryptoRead (n : Nat) : (Event.cryptoRead n).isStdout = false := rfl
theorem isStdout_log (s : String) : (Event.log s).isStdout = false := rfl
theorem isStdout_readStdin : Event.readStdin.isStdout = false := rfl
theorem isStdout_stdout (s : String) : (Event.stdout s).isStdout = true := rfl

/-- The planning phase when the catalog loads, the name is settled and a record
matches: the random bytes for the MAC address are drawn, and the only text on
standard output is the prompt. -/
theorem planning_found (sem : LoopVar) (f : Flags) (env : Env) (fs : FS)
    (catalog : List Distro) (hd : env.distros = Except.ok catalog)
    (hn : f.name ≠ "" ∨ ∃ ns, env.names = Except.ok ns ∧ ns ≠ [])
    (hfound : (resolveDistro sem f.distro f.zvolSize catalog).found = true) :
    Event.cryptoRead 6 ∈ (planning sem f env fs).events ∧
    ∀ ev ∈ (planning sem f env fs).events, ev.isStdout = true →
      ev = Event.stdout "press enter if this looks okay:" := by
  obtain ⟨evN, name, hv, -, hkind⟩ := vmName_ok f env fs hn
  have hN : ∀ ev ∈ evN, ev.isStdout = true → ev = Event.stdout "press enter if this looks okay:" := by
    intro ev hev hs
    rcases hkind ev hev with h | h <;> cases ev <;> simp_all [Event.isEmbeddedLoad, Event.isRandom,
      Event.isStdout]
  obtain ⟨hcfs, -, r, hcout⟩ := connectToLibvirt_spec env fs
  have hckind := connectToLibvirt_kind env fs
  rcases hc : connectToLibvirt env fs with ⟨evC, fsC, oC⟩
  rw [hc] at hcfs hckind hcout
  simp only at hcfs hckind hcout
  subst hcfs hcout
  have hC : ∀ ev ∈ evC, ev.isStdout = true → ev = Event.stdout "press enter if this looks okay:" := by
    intro ev hev hs
    have h1 := hckind ev hev
    cases ev <;> simp_all [Event.isHypervisorConnect, Event.isStdout]
  rcases hm : randomMac env.cryptoRand with e | mac
  · simp [planning, bind, Run.bind, emit, fatal, pure, Run.pure, getDistros, hv, hd, hfound, hm,
      isStdout_seedRand, isStdout_readEmbedded, isStdout_cryptoRead, isStdout_log,
      isStdout_readStdin]
    rintro ev (h | h | h | h) hs
    all_goals first | exact hN ev h hs | (subst h; first | rfl | cases hs)
  · rcases r with e | u
    · simp [planning, bind, Run.bind, emit, fatal, pure, Run.pure, getDistros, hv, hd, hfound, hm,
        hc, isStdout_seedRand, isStdout_readEmbedded, isStdout_cryptoRead, isStdout_log,
        isStdout_readStdin]
      rintro ev (h | h | h | h | h) hs
      all_goals first | exact hN ev h hs | exact hC ev h hs | (subst h; first | rfl | cases hs)
    · simp [planning, bind, Run.bind, emit, fatal, pure, Run.pure, getDistros, hv, hd, hfound, hm,
        hc, isStdout_seedRand, isStdout_readEmbedded, isStdout_cryptoRead, isStdout_log,
        isStdout_readStdin]
      rintro ev (h | h | h | h | h | h | h | h | h | h | h | h) hs
      all_goals first | exact hN ev h hs | exact hC ev h hs | (subst h; first | rfl | cases hs)

theorem load_or_random_quiet (ev : Event)
    (h : ev.isEmbeddedLoad = true ∨ ev.isRandom = true) :
    ev.isMutating = false ∧ ev.isHypervisorConnect = false := by
  cases ev <;> simp_all [Event.isEmbeddedLoad, Event.isRandom, Event.isMutating,
    Event.isHypervisorConnect]

/-- C5. With the catalog loaded and the VM name settled: when no record has
exactly the requested name, the run is loads of embedded data and random
draws, then the header, then every catalog name in catalog order, each on
standard output, and it ends with exit status 1 with the file system
untouched; no event of the run is a mutating action (directory or file
creation, download, child process, domain creation) or a step of connecting
to libvirt. When some record has exactly the requested name, the header of
the not-found branch is never printed and the run goes on to draw the bytes
of the MAC address. -/
theorem unknown_distro_stops_run (sem : LoopVar) (f : Flags) (env : Env) (fs : FS)
    (catalog : List Distro) (hd : env.distros = Except.ok catalog)
    (hn : f.name ≠ "" ∨ ∃ ns, env.names = Except.ok ns ∧ ns ≠ []) :
    ((∀ d ∈ catalog, d.name ≠ f.distro) →
      ∃ pre, (∀ ev ∈ pre, ev.isEmbeddedLoad = true ∨ ev.isRandom = true) ∧
        (runMain sem f env fs).events =
          pre ++ Event.stdout (notFoundHeader f.distro) ::
            catalog.map (fun d => Event.stdout (d.name ++ "\n")) ∧
        (runMain sem f env fs).exitCode = 1 ∧
        (runMain sem f env fs).fs = fs ∧
        ∀ ev ∈ (runMain sem f env fs).events,
          ev.isMutating = false ∧ ev.isHypervisorConnect = false) ∧
    ((∃ d ∈ catalog, d.name = f.distro) →
      Event.stdout (notFoundHeader f.distro) ∉ (runMain sem f env fs).events ∧
      Event.cryptoRead 6 ∈ (runMain sem f env fs).events) := by
  constructor
  · intro hnot
    obtain ⟨evN, hkind, hp⟩ := planning_not_found sem f env fs catalog hd hn hnot
    obtain ⟨hev, hcode, hfs⟩ := runMain_of_planning_exit sem f env fs 1 (by rw [hp])
    rw [hp] at hev
    have hpre : ∀ ev ∈ Event.seedRand :: (evN ++ [Event.readEmbedded "data/distros.dhall"]),
        ev.isEmbeddedLoad = true ∨ ev.isRandom = true := by
      intro ev hmem
      simp only [List.mem_cons, List.mem_append, List.mem_singleton, List.not_mem_nil,
        or_false] at hmem
      rcases hmem with h | h | h
      · subst h; right; rfl
      · exact hkind ev h
      · subst h; left; rfl
    refine ⟨_, hpre, hev, hcode, hfs, ?_⟩
    intro ev hmem
    rw [hev] at hmem
    rcases List.mem_append.mp hmem with h | h
    · exact load_or_random_quiet ev (hpre ev h)
    · rcases List.mem_cons.mp h with h1 | h1
      · subst h1; exact ⟨rfl, rfl⟩
      · obtain ⟨d, -, rfl⟩ := List.mem_map.mp h1
        exact ⟨rfl, rfl⟩
  · intro hex
    have hfound := (resolveDistro_found sem f.distro f.zvolSize catalog).mpr hex
    obtain ⟨hcrypto, hstd⟩ := planning_found sem f env fs catalog hd hn hfound
    have hplan : Event.stdout (notFoundHeader f.distro) ∉ (planning sem f env fs).events := by
      intro hmem
      have := hstd _ hmem rfl
      injection this with h
      exact header_ne_prompt f.distro h
    rcases runMain_cases sem f env fs with ⟨c, -, -, -, -, hevs⟩ |
      ⟨plan, pre, cat2, -, -, -, -, -, -, -, -, hpl, h⟩
    · rw [hevs]; exact ⟨hplan, hcrypto⟩
    · obtain ⟨haev, -⟩ := acquireImage_spec env plan.distro fs
      have hsplit : ∀ rest, (∀ ev ∈ rest, ev.isStdout = false) →
          (runMain sem f env fs).events = pre ++ Event.readStdin :: rest →
          Event.stdout (notFoundHeader f.distro) ∉ (runMain sem f env fs).events ∧
            Event.cryptoRead 6 ∈ (runMain sem f env fs).events := by
        intro rest hrest hevs
        have hevs2 : (runMain sem f env fs).events = (planning sem f env fs).events ++ rest := by
          rw [hevs, hpl]; simp
        rw [hevs2]
        refine ⟨?_, List.mem_append_left _ hcrypto⟩
        intro hmem
        rcases List.mem_append.mp hmem with h1 | h1
        · exact hplan h1
        · have := hrest _ h1
          cases this
      rcases h with ⟨c, -, hevs, -, -⟩ | ⟨img, -, h⟩
      · exact hsplit _ (fun ev hev => (acquire_not_later ev (haev ev hev)).2.2.2.2.1) hevs
      · obtain ⟨-, hsev, -, -⟩ := buildSeed_spec env plan img (acquireImage env plan.distro fs).fs
        rcases h with ⟨c, -, hevs, -⟩ | ⟨iso, -, hevs, -, -⟩
        · refine hsplit _ ?_ hevs
          intro ev hev
          rcases List.mem_append.mp hev with h1 | h1
          · exact (acquire_not_later ev (haev ev h1)).2.2.2.2.1
          · exact (seed_not_later ev (hsev ev h1)).2.2.2.2.1
        · refine hsplit _ ?_ hevs
          intro ev hev
          rcases List.mem_append.mp hev with h1 | h1
          · exact (acquire_not_later ev (haev ev h1)).2.2.2.2.1
          · rcases List.mem_append.mp h1 with h2 | h2
            · exact (seed_not_later ev (hsev ev h2)).2.2.2.2.1
            · exact provision_no_stdout _ _ _ _ _ _ ev h2

/-! ## `randomMac` -/

set_option maxRecDepth 100000 in
/-- Writing a byte as two hexadecimal digits and reading it back. -/
theorem hexPair_hexDigit_fin :
    ∀ b : Fin 256, hexPair (hexDigit (b.val >>> 4)) (hexDigit (b.val &&& 0xF)) = some b.val := by
  decide

theorem hexPair_hexDigit (b : Nat) (h : b < 256) :
    hexPair (hexDigit (b >>> 4)) (hexDigit (b &&& 0xF)) = some b :=
  hexPair_hexDigit_fin ⟨b, h⟩

set_option maxRecDepth 100000 in
/-- The statement `buf[0] = (buf[0] | 2) & 0xfe` on a byte. -/
theorem localUnicast_bits_fin :
    ∀ b : Fin 256, (b.val ||| 2) &&& 0xfe < 256 ∧ ((b.val ||| 2) &&& 0xfe) &&& 2 = 2 ∧
      ((b.val ||| 2) &&& 0xfe) &&& 1 = 0 ∧ ((b.val ||| 2) &&& 0xfe) &&& 0xfc = b.val &&& 0xfc := by
  decide

/-- C2. For every six bytes that the random source returns, `randomMac` returns
without error a text of 17 characters that reads back, as six two-digit
lowercase hexadecimal groups separated by colons, as six bytes: the last
five are the bytes drawn, and the first has bit 0x02 set, bit 0x01 clear and
its other six bits as drawn. -/
theorem randomMac_locally_administered_unicast (b0 b1 b2 b3 b4 b5 : Nat)
    (h0 : b0 < 256) (h1 : b1 < 256) (h2 : b2 < 256) (h3 : b3 < 256) (h4 : b4 < 256)
    (h5 : b5 < 256) :
    ∃ s first, randomMac (Except.ok [b0, b1, b2, b3, b4, b5]) = Except.ok s ∧
      s.length = 17 ∧
      decodeMac s = some [first, b1, b2, b3, b4, b5] ∧
      first &&& 2 = 2 ∧ first &&& 1 = 0 ∧ first &&& 0xfc = b0 &&& 0xfc := by
  obtain ⟨hlt, hb2, hb1, hrest⟩ := localUnicast_bits_fin ⟨b0, h0⟩
  refine ⟨_, (b0 ||| 2) &&& 0xfe, rfl, ?_, ?_, hb2, hb1, hrest⟩
  · simp [hardwareAddrString, hardwareAddrChars, setLocalUnicast, String.length]
  · simp only [decodeMac, hardwareAddrString, hardwareAddrChars, setLocalUnicast, decodeMacChars,
      if_true, hexPair_hexDigit _ hlt, hexPair_hexDigit _ h1, hexPair_hexDigit _ h2,
      hexPair_hexDigit _ h3, hexPair_hexDigit _ h4, hexPair_hexDigit _ h5, Option.map_some']

/-- The image-acquisition step when the `os.Stat` finds something at the
path: four events, no download. -/
theorem acquireImage_hit (env : Env) (d : Distro) (fs : FS) (userCache : String) (n : Node)
    (hu : env.userCacheDir = Except.ok userCache)
    (hn : cacheDirsMade (cacheDir userCache) fs (imagePath userCache d.sha256Sum) = some n) :
    acquireImage env d fs =
      ⟨[Event.userCacheDir, Event.mkdirAll (filepathJoin [cacheDir userCache, "qcow2"]),
        Event.mkdirAll (filepathJoin [cacheDir userCache, "seed"]),
        Event.stat (imagePath userCache d.sha256Sum)],
        cacheDirsMade (cacheDir userCache) fs,
        Outcome.ok ⟨cacheDir userCache, imagePath userCache d.sha256Sum⟩⟩ := by
  rw [acquireImage_eq env d fs userCache hu]
  unfold cacheDir imagePath at hn
  unfold cacheDir at hn
  rw [hn]
  rfl

/-- C3 as amended. The image-acquisition step (lines 101-132) computes the path
`<cacheDir>/qcow2/c` and calls `os.Stat` on it. When a file is already at that
path the step succeeds with that path and its events are exactly
`os.UserCacheDir`, `os.MkdirAll(<cacheDir>/qcow2)`, `os.MkdirAll(<cacheDir>/seed)`
and the `os.Stat`: no HTTP request, no file created or written. Every entry of
the file system stays as it was, the cached file included, and a directory
appears only where nothing was, at `<cacheDir>/qcow2`, at `<cacheDir>/seed` or
at an ancestor of these. When the `os.Stat` finds nothing and the step then
succeeds, it made exactly one HTTP request, and a second run from the file
system it leaves makes none and returns the same path, so that the two runs
make exactly one request. -/
theorem image_cache_hit_skips_download (env env2 : Env) (d : Distro) (fs : FS)
    (userCache : String) (hu : env.userCacheDir = Except.ok userCache)
    (hu2 : env2.userCacheDir = Except.ok userCache) :
    (∀ img, (acquireImage env d fs).out = Outcome.ok img →
      img = ⟨cacheDir userCache, imagePath userCache d.sha256Sum⟩) ∧
    Event.stat (imagePath userCache d.sha256Sum) ∈ (acquireImage env d fs).events ∧
    (∀ content, fs (imagePath userCache d.sha256Sum) = some (Node.file content) →
      (acquireImage env d fs).out =
        Outcome.ok ⟨cacheDir userCache, imagePath userCache d.sha256Sum⟩ ∧
      (acquireImage env d fs).events =
        [Event.userCacheDir, Event.mkdirAll (filepathJoin [cacheDir userCache, "qcow2"]),
          Event.mkdirAll (filepathJoin [cacheDir userCache, "seed"]),
          Event.stat (imagePath userCache d.sha256Sum)] ∧
      httpRequests (acquireImage env d fs).events = 0 ∧
      (∀ q, (acquireImage env d fs).fs q = fs q ∨
        (fs q = none ∧ (acquireImage env d fs).fs q = some Node.dir ∧
          (q ∈ selfAndAncestors (filepathJoin [cacheDir userCache, "qcow2"]) ∨
            q ∈ selfAndAncestors (filepathJoin [cacheDir userCache, "seed"])))) ∧
      (acquireImage env d fs).fs (imagePath userCache d.sha256Sum) =
        some (Node.file content)) ∧
    (cacheDirsMade (cacheDir userCache) fs (imagePath userCache d.sha256Sum) = none →
      ∀ img, (acquireImage env d fs).out = Outcome.ok img →
        httpRequests (acquireImage env d fs).events = 1 ∧
        httpRequests (acquireImage env2 d (acquireImage env d fs).fs).events = 0 ∧
        (acquireImage env2 d (acquireImage env d fs).fs).out = Outcome.ok img ∧
        httpRequests ((acquireImage env d fs).events ++
          (acquireImage env2 d (acquireImage env d fs).fs).events) = 1) := by
  have heq := acquireImage_eq env d fs userCache hu
  have hspec := download_spec env d (imagePath userCache d.sha256Sum)
    (cacheDirsMade (cacheDir userCache) fs)
  refine ⟨?_, ?_, ?_, ?_⟩
  · intro img hout
    rcases hst : cacheDirsMade (cacheDir userCache) fs (imagePath userCache d.sha256Sum)
      with _ | n
    · unfold cacheDir imagePath at hst hspec
      unfold cacheDir at hst hspec
      rw [hst] at heq
      simp only at heq
      rcases hdl : download env d
          (filepathJoin [filepathJoin [userCache, "within", "mkvm"], "qcow2", d.sha256Sum])
          (cacheDirsMade (filepathJoin [userCache, "within", "mkvm"]) fs) with ⟨ev, fs1, o⟩
      rw [hdl] at heq
      cases o with
      | exit c => simp only at heq; rw [heq] at hout; cases hout
      | ok u =>
        simp only at heq
        rw [heq] at hout
        injection hout with h
        exact h.symm
    · rw [acquireImage_hit env d fs userCache n hu hst] at hout
      injection hout with h
      exact h.symm
  · rcases hst : cacheDirsMade (cacheDir userCache) fs (imagePath userCache d.sha256Sum)
      with _ | n
    · unfold cacheDir imagePath at hst
      unfold cacheDir at hst
      rw [hst] at heq
      simp only at heq
      rcases hdl : download env d
          (filepathJoin [filepathJoin [userCache, "within", "mkvm"], "qcow2", d.sha256Sum])
          (cacheDirsMade (filepathJoin [userCache, "within", "mkvm"]) fs) with ⟨ev, fs1, o⟩
      rw [hdl] at heq
      cases o <;> (simp only at heq; rw [heq]; simp [imagePath, cacheDir])
    · rw [acquireImage_hit env d fs userCache n hu hst]
      simp
  · intro content hn
    have hkeep : cacheDirsMade (cacheDir userCache) fs (imagePath userCache d.sha256Sum)
        = some (Node.file content) := by
      rcases cacheDirsMade_only_adds_dirs (cacheDir userCache) fs
        (imagePath userCache d.sha256Sum) with h | ⟨h, -⟩
      · rw [h, hn]
      · rw [hn] at h; cases h
    rw [acquireImage_hit env d fs userCache (Node.file content) hu hkeep]
    refine ⟨rfl, rfl, by simp [httpRequests], ?_, hkeep⟩
    intro q
    exact cacheDirsMade_only_adds_dirs _ _ _
  · intro hmiss img hout
    have hmiss2 := hmiss
    unfold cacheDir imagePath at hmiss2 hspec
    unfold cacheDir at hmiss2 hspec
    rw [hmiss2] at heq
    simp only at heq
    obtain ⟨-, hok, -, -, -⟩ := hspec
    rcases hdl : download env d
        (filepathJoin [filepathJoin [userCache, "within", "mkvm"], "qcow2", d.sha256Sum])
        (cacheDirsMade (filepathJoin [userCache, "within", "mkvm"]) fs) with ⟨ev, fs1, o⟩
    rw [hdl] at heq hok
    cases o with
    | exit c => simp only at heq; rw [heq] at hout; cases hout
    | ok u =>
      simp only at heq hok
      obtain ⟨hone, resp, -, hfile⟩ := hok u trivial
      have himg : img = ⟨cacheDir userCache, imagePath userCache d.sha256Sum⟩ := by
        rw [heq] at hout
        injection hout with h
        exact h.symm
      have hfs : (acquireImage env d fs).fs = fs1 := by rw [heq]
      have hev1 : httpRequests (acquireImage env d fs).events = 1 := by
        rw [heq]
        simp only [httpRequests_append, hone]
        simp [httpRequests]
      have hkeep : cacheDirsMade (cacheDir userCache) fs1 (imagePath userCache d.sha256Sum)
          = some (Node.file resp.body) := by
        rcases cacheDirsMade_only_adds_dirs (cacheDir userCache) fs1
          (imagePath userCache d.sha256Sum) with h | ⟨h, -⟩
        · rw [h]; exact hfile
        · have : fs1 (imagePath userCache d.sha256Sum) = some (Node.file resp.body) := hfile
          rw [this] at h; cases h
      have h2 := acquireImage_hit env2 d fs1 userCache _ hu2 hkeep
      rw [hfs]
      have hev2 : httpRequests (acquireImage env2 d fs1).events = 0 := by
        rw [h2]; simp [httpRequests]
      refine ⟨hev1, hev2, ?_, ?_⟩
      · rw [h2, himg]
      · rw [httpRequests_append, hev1, hev2]

set_option maxRecDepth 100000 in
/-- C3 as stated fails: with the image of `alpine` in the cache and no `seed`
directory, the step is a cache hit and yet the file system is not the same
afterwards, because `os.MkdirAll` makes the `seed` directory. -/
theorem cache_hit_changes_file_system :
    cachedFS (imagePath "/home/u/.cache" alpine.sha256Sum) = some (Node.file "QCOW2") ∧
    (acquireImage (scenarioEnv twoCatalog) alpine cachedFS).out =
      Outcome.ok ⟨"/home/u/.cache/within/mkvm", "/home/u/.cache/within/mkvm/qcow2/abc123"⟩ ∧
    cachedFS "/home/u/.cache/within/mkvm/seed" = none ∧
    (acquireImage (scenarioEnv twoCatalog) alpine cachedFS).fs "/home/u/.cache/within/mkvm/seed"
      = some Node.dir ∧
    (acquireImage (scenarioEnv twoCatalog) alpine cachedFS).fs ≠ cachedFS := by
  refine ⟨by decide, ?_, by decide, by decide, ?_⟩
  · rw [acquireImage_hit (scenarioEnv twoCatalog) alpine cachedFS "/home/u/.cache"
      (Node.file "QCOW2") rfl (by decide)]
    have h1 : cacheDir "/home/u/.cache" = "/home/u/.cache/within/mkvm" := by decide
    have h2 : imagePath "/home/u/.cache" alpine.sha256Sum
        = "/home/u/.cache/within/mkvm/qcow2/abc123" := by decide
    rw [h1, h2]
  · intro h
    have h1 := congrFun h "/home/u/.cache/within/mkvm/seed"
    revert h1
    decide

/-! ## The distro loop in general -/

theorem resolveLoop_append (sem : LoopVar) (target : String) (s : Int) (pre : List Distro) :
    ∀ (rest : List Distro) (i : Nat) (st : LoopState),
      resolveLoop sem target s (pre ++ rest) i st =
        resolveLoop sem target s rest (i + pre.length) (resolveLoop sem target s pre i st) := by
  induction pre with
  | nil => intro rest i st; simp [resolveLoop]
  | cons d pre ih =>
    intro rest i st
    have hidx : i + 1 + pre.length = i + (pre.length + 1) := by omega
    show resolveLoop sem target s (pre ++ rest) (i + 1) (loopBody sem target s i d st) =
      resolveLoop sem target s rest (i + (pre.length + 1))
        (resolveLoop sem target s pre (i + 1) (loopBody sem target s i d st))
    rw [ih, hidx]

/-- An iteration on a record with another name only assigns the loop variable. -/
theorem loopBody_other (sem : LoopVar) (target : String) (s : Int) (i : Nat) (elem : Distro)
    (st : LoopState) (h : elem.name ≠ target) :
    loopBody sem target s i elem st =
      { st with cells := fun k => if k = sem.cell i then some elem else st.cells k } := by
  simp [loopBody, h]

/-- Iterations on records with other names leave `found`, `resultDistro` and the
pointer alone; with a variable for each iteration they also leave the
variables of earlier iterations alone. -/
theorem resolveLoop_other (sem : LoopVar) (target : String) (s : Int) (ds : List Distro) :
    ∀ (i : Nat) (st : LoopState), (∀ x ∈ ds, x.name ≠ target) →
      (resolveLoop sem target s ds i st).found = st.found ∧
      (resolveLoop sem target s ds i st).resultDistro = st.resultDistro ∧
      (resolveLoop sem target s ds i st).zvolSize = st.zvolSize ∧
      (sem = LoopVar.perIteration → ∀ c, c < i →
        (resolveLoop sem target s ds i st).cells c = st.cells c) ∧
      (sem = LoopVar.perLoop →
        (resolveLoop sem target s ds i st).cells 0 =
          match ds.getLast? with
          | some l => some l
          | none => st.cells 0) := by
  induction ds with
  | nil => intro i st _; simp [resolveLoop]
  | cons d rest ih =>
    intro i st h
    have hd : d.name ≠ target := h d (by simp)
    have hrest : ∀ x ∈ rest, x.name ≠ target := fun x hx => h x (by simp [hx])
    obtain ⟨h1, h2, h3, h4, h5⟩ := ih (i + 1) (loopBody sem target s i d st) hrest
    simp only [resolveLoop]
    rw [loopBody_other sem target s i d st hd] at h1 h2 h3 h4 h5 ⊢
    refine ⟨h1, h2, h3, ?_, ?_⟩
    · intro hsem c hc
      rw [h4 hsem c (by omega)]
      subst hsem
      have : c ≠ i := by omega
      simp [LoopVar.cell, this]
    · intro hsem
      rw [h5 hsem]
      subst hsem
      cases rest with
      | nil => simp [LoopVar.cell]
      | cons e rest2 =>
        rw [List.getLast?_cons_cons]
        rcases hl : (e :: rest2).getLast? with _ | l
        · simp at hl
        · rfl

/-- The state after the iteration on the one record with the requested name,
entered with the pointer still at the flag. -/
theorem loopBody_match (sem : LoopVar) (target : String) (s : Int) (i : Nat) (d : Distro)
    (st : LoopState) (hd : d.name = target) (hp : st.zvolSize = SizePtr.flagValue)
    (hmin : 0 < d.minSize) :
    (loopBody sem target s i d st).found = true ∧
    (loopBody sem target s i d st).resultDistro = d ∧
    (loopBody sem target s i d st).cells (sem.cell i) = some d ∧
    (loopBody sem target s i d st).zvolSize =
      (if s < d.minSize then SizePtr.loopVarMinSize (sem.cell i) else SizePtr.flagValue) := by
  by_cases h0 : s = 0
  · subst h0
    simp [loopBody, hd, hp, LoopState.deref, hmin]
  · by_cases hlt : s < d.minSize
    · simp [loopBody, hd, hp, LoopState.deref, h0, hlt]
    · simp [loopBody, hd, hp, LoopState.deref, h0, hlt]

/-- With a loop variable for each iteration (Go 1.22 and later) and exactly one
record of the requested name, with a positive minimum size, the loop resolves
that record and `*zvolSize` is the larger of the requested and the minimum
size, wherever the record sits in the catalog. -/
theorem volume_size_per_iteration (target : String) (s : Int) (pre post : List Distro)
    (d : Distro) (hpre : ∀ x ∈ pre, x.name ≠ target) (hpost : ∀ x ∈ post, x.name ≠ target)
    (hd : d.name = target) (hmin : 0 < d.minSize) :
    resolveDistro LoopVar.perIteration target s (pre ++ d :: post) =
      { found := true, distro := d, size := max s d.minSize } := by
  unfold resolveDistro
  rw [resolveLoop_append]
  simp only [resolveLoop, Nat.zero_add]
  obtain ⟨-, -, p3, -, -⟩ :=
    resolveLoop_other LoopVar.perIteration target s pre 0 initLoopState hpre
  obtain ⟨m1, m2, m3, m4⟩ := loopBody_match LoopVar.perIteration target s pre.length d
    (resolveLoop LoopVar.perIteration target s pre 0 initLoopState) hd p3 hmin
  obtain ⟨q1, q2, q3, q4, -⟩ := resolveLoop_other LoopVar.perIteration target s post
    (pre.length + 1) (loopBody LoopVar.perIteration target s pre.length d
      (resolveLoop LoopVar.perIteration target s pre 0 initLoopState)) hpost
  have hcell := q4 rfl pre.length (by omega)
  simp only [LoopVar.cell] at m3 m4
  rw [m3] at hcell
  simp only [LoopState.deref, q1, q2, q3, m1, m2, m4]
  by_cases hlt : s < d.minSize
  · simp only [hlt, if_true, hcell]
    rw [max_eq_right (le_of_lt hlt)]
  · simp only [hlt, if_false]
    rw [max_eq_left (not_lt.mp hlt)]

/-- With one loop variable for the whole loop (before Go 1.22) and exactly one
record of the requested name, with a positive minimum size: when the requested
size is at least the minimum it is kept; otherwise `*zvolSize` is the minimum
size of the last record of the catalog, which is the resolved record only when
that record is last. -/
theorem volume_size_per_loop (target : String) (s : Int) (pre post : List Distro)
    (d : Distro) (hpre : ∀ x ∈ pre, x.name ≠ target) (hpost : ∀ x ∈ post, x.name ≠ target)
    (hd : d.name = target) (hmin : 0 < d.minSize) :
    resolveDistro LoopVar.perLoop target s (pre ++ d :: post) =
      { found := true, distro := d,
        size := if s < d.minSize then
            (match post.getLast? with
              | some l => l.minSize
              | none => d.minSize)
          else s } := by
  unfold resolveDistro
  rw [resolveLoop_append]
  simp only [resolveLoop, Nat.zero_add]
  obtain ⟨-, -, p3, -, -⟩ :=
    resolveLoop_other LoopVar.perLoop target s pre 0 initLoopState hpre
  obtain ⟨m1, m2, m3, m4⟩ := loopBody_match LoopVar.perLoop target s pre.length d
    (resolveLoop LoopVar.perLoop target s pre 0 initLoopState) hd p3 hmin
  obtain ⟨q1, q2, q3, -, q5⟩ := resolveLoop_other LoopVar.perLoop target s post
    (pre.length + 1) (loopBody LoopVar.perLoop target s pre.length d
      (resolveLoop LoopVar.perLoop target s pre 0 initLoopState)) hpost
  have hcell := q5 rfl
  simp only [LoopVar.cell] at m3 m4
  rw [m3] at hcell
  simp only [LoopState.deref, q1, q2, q3, m1, m2, m4]
  by_cases hlt : s < d.minSize
  · simp only [hlt, if_true, hcell]
    cases post.getLast? <;> rfl
  · simp only [hlt, if_false]

/-- Whenever the image-acquisition step has made its HTTP request, a file is at
the final cache path afterwards, whether or not the download went through:
`os.Create` comes before `http.Get` and nothing removes the file. -/
theorem requested_image_leaves_file (env : Env) (d : Distro) (fs : FS) (userCache : String)
    (hu : env.userCacheDir = Except.ok userCache)
    (hreq : httpRequests (acquireImage env d fs).events ≠ 0) :
    ∃ content, (acquireImage env d fs).fs (imagePath userCache d.sha256Sum) =
      some (Node.file content) := by
  have heq := acquireImage_eq env d fs userCache hu
  rcases hst : cacheDirsMade (cacheDir userCache) fs (imagePath userCache d.sha256Sum)
    with _ | n
  · obtain ⟨-, -, -, hfile, -⟩ := download_spec env d (imagePath userCache d.sha256Sum)
      (cacheDirsMade (cacheDir userCache) fs)
    unfold cacheDir imagePath at hst hfile
    unfold cacheDir at hst hfile
    rw [hst] at heq
    simp only at heq
    rcases hdl : download env d
        (filepathJoin [filepathJoin [userCache, "within", "mkvm"], "qcow2", d.sha256Sum])
        (cacheDirsMade (filepathJoin [userCache, "within", "mkvm"]) fs) with ⟨ev, fs1, o⟩
    rw [hdl] at heq hfile
    simp only at hfile
    have hfs : (acquireImage env d fs).fs = fs1 := by
      cases o <;> (simp only at heq; rw [heq])
    have hev : httpRequests (acquireImage env d fs).events = httpRequests ev := by
      cases o <;> (simp only at heq; rw [heq, httpRequests_append]; simp [httpRequests])
    rw [hev] at hreq
    rcases hfile with h0 | ⟨-, content, hc⟩
    · exact absurd h0 hreq
    · exact ⟨content, by rw [hfs]; exact hc⟩
  · rw [acquireImage_hit env d fs userCache n hu hst] at hreq
    exact absurd (by simp [httpRequests]) hreq

/-! ## Where the code departs from the specification -/

set_option maxRecDepth 100000 in
/-- C1, evaluated. With one loop variable for the whole loop (Go before 1.22)
and the requested distro not last in the catalog, `*zvolSize` ends up as the
minimum size of the last record: for `alpine-edge` (minimum 4) followed by
another record (minimum 20) and `-zvol-size 0` the command is
`zfs create -V 20G`, not `4G`. With two records of the same name the size is
wrong under either meaning of the loop variable. -/
theorem volume_size_follows_loop_variable :
    (resolveDistro LoopVar.perLoop "alpine-edge" 0 twoCatalog).distro = alpine ∧
    (resolveDistro LoopVar.perLoop "alpine-edge" 0 twoCatalog).size = 20 ∧
    max (0 : Int) alpine.minSize = 4 ∧
    Event.exec ["sudo", "zfs", "create", "-V", "20G", "rpool/mkvm-test/test1"] ∈
      (runMain LoopVar.perLoop scenarioFlags (scenarioEnv twoCatalog) emptyFS).events ∧
    (∀ sem, (resolveDistro sem "alpine-edge" 0 dupCatalog).distro = alpine ∧
      (resolveDistro sem "alpine-edge" 0 dupCatalog).size ≠ max (0 : Int) alpine.minSize) := by
  refine ⟨by decide, by decide, by decide, by decide, ?_⟩
  intro sem
  cases sem <;> decide

set_option maxRecDepth 100000 in
/-- C4, evaluated. On a cold cache, when the request fails, when the server
answers 404 and when the copy breaks off, the run ends with status 1 and a
file (empty, or cut short) is left at the final cache path; the next run
finds it, makes no HTTP request and hands it to `qemu-img convert`. -/
theorem failed_download_leaves_file :
    emptyFS "/home/u/.cache/within/mkvm/qcow2/abc123" = none ∧
    (runMain LoopVar.perIteration scenarioFlags refusedEnv emptyFS).exitCode = 1 ∧
    (runMain LoopVar.perIteration scenarioFlags refusedEnv emptyFS).fs
      "/home/u/.cache/within/mkvm/qcow2/abc123" = some (Node.file "") ∧
    (runMain LoopVar.perIteration scenarioFlags notFoundEnv emptyFS).exitCode = 1 ∧
    (runMain LoopVar.perIteration scenarioFlags notFoundEnv emptyFS).fs
      "/home/u/.cache/within/mkvm/qcow2/abc123" = some (Node.file "") ∧
    (runMain LoopVar.perIteration scenarioFlags truncatedEnv emptyFS).exitCode = 1 ∧
    (runMain LoopVar.perIteration scenarioFlags truncatedEnv emptyFS).fs
      "/home/u/.cache/within/mkvm/qcow2/abc123" = some (Node.file "QC") ∧
    httpRequests (runMain LoopVar.perIteration scenarioFlags (scenarioEnv [alpine])
      (runMain LoopVar.perIteration scenarioFlags refusedEnv emptyFS).fs).events = 0 ∧
    Event.exec ["sudo", "qemu-img", "convert", "-O", "raw",
        "/home/u/.cache/within/mkvm/qcow2/abc123", "/dev/zvol/rpool/mkvm-test/test1"] ∈
      (runMain LoopVar.perIteration scenarioFlags (scenarioEnv [alpine])
        (runMain LoopVar.perIteration scenarioFlags refusedEnv emptyFS).fs).events := by
  refine ⟨by decide, by decide, by decide, by decide, by decide, by decide, by decide, by decide,
    by decide⟩

set_option maxRecDepth 100000 in
/-- C8, evaluated. When `qemu-img convert` fails, and when the `base.xml`
template fails, the volume has been created, the run ends with status 1 and
no line `zfs destroy rpool/mkvm-test/test1` is logged; when `DomainCreateXML`
fails the line is logged. -/
theorem remedial_line_only_after_failed_domain :
    Event.exec ["sudo", "zfs", "create", "-V", "4G", "rpool/mkvm-test/test1"] ∈
      (runMain LoopVar.perIteration scenarioFlags importFailsEnv emptyFS).events ∧
    (runMain LoopVar.perIteration scenarioFlags importFailsEnv emptyFS).exitCode = 1 ∧
    Event.log "zfs destroy rpool/mkvm-test/test1" ∉
      (runMain LoopVar.perIteration scenarioFlags importFailsEnv emptyFS).events ∧
    (runMain LoopVar.perIteration scenarioFlags importFailsEnv emptyFS).events.getLast? =
      some (Event.log "can't import qcow2: exit status 1") ∧
    Event.exec ["sudo", "zfs", "create", "-V", "4G", "rpool/mkvm-test/test1"] ∈
      (runMain LoopVar.perIteration scenarioFlags renderFailsEnv emptyFS).events ∧
    (runMain LoopVar.perIteration scenarioFlags renderFailsEnv emptyFS).exitCode = 1 ∧
    Event.log "zfs destroy rpool/mkvm-test/test1" ∉
      (runMain LoopVar.perIteration scenarioFlags renderFailsEnv emptyFS).events ∧
    (runMain LoopVar.perIteration scenarioFlags renderFailsEnv emptyFS).events.getLast? =
      some (Event.log "can't generate VM template: template: base.xml: no such field") ∧
    Event.log "zfs destroy rpool/mkvm-test/test1" ∈
      (runMain LoopVar.perIteration scenarioFlags createFailsEnv emptyFS).events := by
  refine ⟨by decide, by decide, by decide, by decide, by decide, by decide, by decide, by decide,
    by decide⟩

/-! ## The theorems at concrete inputs -/

/-- C2 at the bytes `5f 10 a2 03 ee ff`. -/
theorem randomMac_locally_administered_unicast_witness :
    ((0x5f : Nat) < 256 ∧ (0x10 : Nat) < 256 ∧ (0xa2 : Nat) < 256 ∧ (0x03 : Nat) < 256 ∧
      (0xee : Nat) < 256 ∧ (0xff : Nat) < 256) ∧
    ∃ s first, randomMac (Except.ok [0x5f, 0x10, 0xa2, 0x03, 0xee, 0xff]) = Except.ok s ∧
      s.length = 17 ∧
      decodeMac s = some [first, 0x10, 0xa2, 0x03, 0xee, 0xff] ∧
      first &&& 2 = 2 ∧ first &&& 1 = 0 ∧ first &&& 0xfc = 0x5f &&& 0xfc :=
  ⟨by decide, randomMac_locally_administered_unicast 0x5f 0x10 0xa2 0x03 0xee 0xff (by decide)
    (by decide) (by decide) (by decide) (by decide) (by decide)⟩

set_option maxRecDepth 100000 in
/-- C3 as amended, at a cache that holds the image (a hit) and at an empty file
system (a miss, a download, then a hit). -/
theorem image_cache_hit_skips_download_witness :
    (scenarioEnv [alpine]).userCacheDir = Except.ok "/home/u/.cache" ∧
    cachedFS (imagePath "/home/u/.cache" alpine.sha256Sum) = some (Node.file "QCOW2") ∧
    httpRequests (acquireImage (scenarioEnv [alpine]) alpine cachedFS).events = 0 ∧
    cacheDirsMade (cacheDir "/home/u/.cache") emptyFS
      (imagePath "/home/u/.cache" alpine.sha256Sum) = none ∧
    (acquireImage (scenarioEnv [alpine]) alpine emptyFS).out =
      Outcome.ok ⟨"/home/u/.cache/within/mkvm", "/home/u/.cache/within/mkvm/qcow2/abc123"⟩ ∧
    httpRequests ((acquireImage (scenarioEnv [alpine]) alpine emptyFS).events ++
      (acquireImage refusedEnv alpine
        (acquireImage (scenarioEnv [alpine]) alpine emptyFS).fs).events) = 1 :=
  ⟨rfl, by decide,
    ((image_cache_hit_skips_download (scenarioEnv [alpine]) (scenarioEnv [alpine]) alpine cachedFS
      "/home/u/.cache" rfl rfl).2.2.1 "QCOW2" (by decide)).2.2.1,
    by decide, by decide,
    ((image_cache_hit_skips_download (scenarioEnv [alpine]) refusedEnv alpine emptyFS
      "/home/u/.cache" rfl rfl).2.2.2 (by decide)
      ⟨"/home/u/.cache/within/mkvm", "/home/u/.cache/within/mkvm/qcow2/abc123"⟩
      (by decide)).2.2.2⟩

set_option maxRecDepth 100000 in
/-- C5 at a request that differs from a catalog name only in case (not found)
and at the request of the scenario (found). -/
theorem unknown_distro_stops_run_witness :
    (scenarioEnv twoCatalog).distros = Except.ok twoCatalog ∧
    wrongCaseFlags.name ≠ "" ∧
    (∀ d ∈ twoCatalog, d.name ≠ wrongCaseFlags.distro) ∧
    (∃ pre, (∀ ev ∈ pre, ev.isEmbeddedLoad = true ∨ ev.isRandom = true) ∧
      (runMain LoopVar.perIteration wrongCaseFlags (scenarioEnv twoCatalog) emptyFS).events =
        pre ++ Event.stdout (notFoundHeader wrongCaseFlags.distro) ::
          twoCatalog.map (fun d => Event.stdout (d.name ++ "\n")) ∧
      (runMain LoopVar.perIteration wrongCaseFlags (scenarioEnv twoCatalog) emptyFS).exitCode = 1 ∧
      (runMain LoopVar.perIteration wrongCaseFlags (scenarioEnv twoCatalog) emptyFS).fs = emptyFS ∧
      ∀ ev ∈ (runMain LoopVar.perIteration wrongCaseFlags (scenarioEnv twoCatalog) emptyFS).events,
        ev.isMutating = false ∧ ev.isHypervisorConnect = false) ∧
    (∃ d ∈ twoCatalog, d.name = scenarioFlags.distro) ∧
    (Event.stdout (notFoundHeader scenarioFlags.distro) ∉
        (runMain LoopVar.perIteration scenarioFlags (scenarioEnv twoCatalog) emptyFS).events ∧
      Event.cryptoRead 6 ∈
        (runMain LoopVar.perIteration scenarioFlags (scenarioEnv twoCatalog) emptyFS).events) :=
  ⟨rfl, by decide, by decide,
    (unknown_distro_stops_run LoopVar.perIteration wrongCaseFlags (scenarioEnv twoCatalog) emptyFS
      twoCatalog rfl (Or.inl (by decide))).1 (by decide),
    ⟨alpine, by decide, by decide⟩,
    (unknown_distro_stops_run LoopVar.perIteration scenarioFlags (scenarioEnv twoCatalog) emptyFS
      twoCatalog rfl (Or.inl (by decide))).2 ⟨alpine, by decide, by decide⟩⟩

set_option maxRecDepth 100000 in
/-- C6 at the scenario with `zfs create` failing: the run reaches the command
and ends right after it. -/
theorem zfs_create_failure_is_fatal_witness :
    volumeFailsEnv.zfsCreate = Except.error "exit status 1" ∧
    (runMain LoopVar.perIteration scenarioFlags volumeFailsEnv emptyFS).events =
      (runMain LoopVar.perIteration scenarioFlags volumeFailsEnv emptyFS).events.take 33 ++
        Event.exec ["sudo", "zfs", "create", "-V", "4G", "rpool/mkvm-test/test1"] ::
          [Event.log "can't create zvol rpool/mkvm-test/test1: exit status 1"] ∧
    (∀ ev ∈ (runMain LoopVar.perIteration scenarioFlags volumeFailsEnv emptyFS).events,
      ev.isImageImport = false ∧ ev.isRenderBase = false ∧ ev.isDomainCreate = false) ∧
    (runMain LoopVar.perIteration scenarioFlags volumeFailsEnv emptyFS).exitCode ≠ 0 ∧
    (runMain LoopVar.perIteration scenarioFlags volumeFailsEnv emptyFS).exitCode = 1 ∧
    ∃ size zvol,
      ["sudo", "zfs", "create", "-V", "4G", "rpool/mkvm-test/test1"] = zfsCreateArgs size zvol ∧
      [Event.log "can't create zvol rpool/mkvm-test/test1: exit status 1"] =
        [Event.log ("can't create zvol " ++ zvol ++ ": " ++ "exit status 1")] :=
  ⟨rfl, by decide,
    (zfs_create_failure_is_fatal LoopVar.perIteration scenarioFlags volumeFailsEnv emptyFS
      "exit status 1" rfl).1,
    (zfs_create_failure_is_fatal LoopVar.perIteration scenarioFlags volumeFailsEnv emptyFS
      "exit status 1" rfl).2.1,
    (zfs_create_failure_is_fatal LoopVar.perIteration scenarioFlags volumeFailsEnv emptyFS
      "exit status 1" rfl).2.2
      ((runMain LoopVar.perIteration scenarioFlags volumeFailsEnv emptyFS).events.take 33)
      [Event.log "can't create zvol rpool/mkvm-test/test1: exit status 1"]
      ["sudo", "zfs", "create", "-V", "4G", "rpool/mkvm-test/test1"] (by decide) (by decide)⟩

set_option maxRecDepth 100000 in
/-- C7 at the scenario with libvirt refusing the domain. -/
theorem failed_domain_names_created_volume_witness :
    Event.domainCreateXML "<domain><name>test1</name><memory>524288</memory></domain>" ∈
      (runMain LoopVar.perIteration scenarioFlags createFailsEnv emptyFS).events ∧
    createFailsEnv.domainCreate "<domain><name>test1</name><memory>524288</memory></domain>" =
      Except.error "operation failed" ∧
    ∃ pre mid size name,
      (scenarioFlags.name ≠ "" → name = scenarioFlags.name) ∧
      (runMain LoopVar.perIteration scenarioFlags createFailsEnv emptyFS).events =
        pre ++ Event.exec ["sudo", "zfs", "create", "-V", fmtInt size ++ "G",
            filepathJoin [scenarioFlags.zvolPrefix, name]] ::
          (mid ++ [Event.log ("can't create domain for " ++ name ++ ": " ++ "operation failed"),
            Event.log "you should run this command:", Event.log "",
            Event.log ("zfs destroy " ++ filepathJoin [scenarioFlags.zvolPrefix, name])]) ∧
      (∀ ev ∈ pre ++ mid, ev.isZfsCreate = false) ∧
      (runMain LoopVar.perIteration scenarioFlags createFailsEnv emptyFS).exitCode = 1 :=
  ⟨by decide, rfl,
    failed_domain_names_created_volume LoopVar.perIteration scenarioFlags createFailsEnv emptyFS
      "<domain><name>test1</name><memory>524288</memory></domain>" "operation failed"
      (by decide) rfl⟩

set_option maxRecDepth 100000 in
/-- C9 at the scenario: the thirteen events before the read of standard input. -/
theorem no_mutation_before_confirmation_witness :
    (runMain LoopVar.perIteration scenarioFlags (scenarioEnv [alpine]) emptyFS).events =
      (runMain LoopVar.perIteration scenarioFlags (scenarioEnv [alpine]) emptyFS).events.take 13 ++
        (runMain LoopVar.perIteration scenarioFlags (scenarioEnv [alpine]) emptyFS).events.drop 13 ∧
    Event.readStdin ∉
      (runMain LoopVar.perIteration scenarioFlags (scenarioEnv [alpine]) emptyFS).events.take 13 ∧
    (runMain LoopVar.perIteration scenarioFlags (scenarioEnv [alpine]) emptyFS).events.get? 13 =
      some Event.readStdin ∧
    ∀ ev ∈ (runMain LoopVar.perIteration scenarioFlags (scenarioEnv [alpine])
        emptyFS).events.take 13, ev.isMutating = false ∧ ev.beforeConfirmation = true :=
  ⟨(List.take_append_drop 13 _).symm, by decide, by decide,
    no_mutation_before_confirmation LoopVar.perIteration scenarioFlags (scenarioEnv [alpine])
      emptyFS _ _ (List.take_append_drop 13 _).symm (by decide)⟩

set_option maxRecDepth 100000 in
/-- C10 at the scenario: 512 MB. -/
theorem domain_memory_is_kibibytes_witness :
    (-2 ^ 63 ≤ scenarioFlags.memory * 1024 ∧ scenarioFlags.memory * 1024 < 2 ^ 63) ∧
    (runMain LoopVar.perIteration scenarioFlags (scenarioEnv [alpine]) emptyFS).exitCode = 0 ∧
    ∃ p xml, p.memory = scenarioFlags.memory * 1024 ∧
      (scenarioEnv [alpine]).baseXml p = Except.ok xml ∧
      Event.renderBase p ∈
        (runMain LoopVar.perIteration scenarioFlags (scenarioEnv [alpine]) emptyFS).events ∧
      Event.domainCreateXML xml ∈
        (runMain LoopVar.perIteration scenarioFlags (scenarioEnv [alpine]) emptyFS).events :=
  ⟨by decide, by decide,
    (domain_memory_is_kibibytes LoopVar.perIteration scenarioFlags (scenarioEnv [alpine]) emptyFS
      (by decide) (by decide)).2.2.1 (by decide)⟩

end Waifud
